import Mathlib

/-!
Verification of the competitor-search retrieval pipeline
(`pipeline/retrieval.py` of `competitors_searcher`), shallowly embedded in Lean.

Scores (Python floats) are modelled as rationals; Python dicts as
insertion-ordered association lists; backend services (Vector Index,
Embedding Service, Sparse Encoder, Rerank Service, catalog loader, field
parser) as an explicit `Backend` record of deterministic functions that
either return a value or fail with an exception message (`Except String`).
Process-wide mutable caches and lazily initialized clients are threaded as
an explicit state `St`, which also counts backend calls.
-/

namespace CompSearch

/-- Scores: Python `float` values modelled as rationals. -/
abbrev Score := ℚ

/-- Drop leading whitespace characters. -/
def skipWs : List Char → List Char
  | [] => []
  | c :: cs => if c.isWhitespace then skipWs cs else c :: cs

/-- Models Python `str.strip()`: drop leading and trailing whitespace. -/
def pyStrip (s : String) : String :=
  String.mk (skipWs (skipWs s.data.reverse).reverse)

/-- Models Python `sep.join(l)` / `str.join`. -/
def joinSep (sep : String) : List String → String
  | [] => ""
  | [x] => x
  | x :: xs => x ++ sep ++ joinSep sep xs

/-- Lexicographic comparison of char lists by code point (Python string
order). -/
def charListLe : List Char → List Char → Bool
  | [], _ => true
  | _ :: _, [] => false
  | a :: as, b :: bs =>
    if a.toNat < b.toNat then true
    else if b.toNat < a.toNat then false
    else charListLe as bs

/-- Python `<=` on strings: code-point lexicographic order. -/
def pyStrLe (a b : String) : Bool := charListLe a.data b.data

/-- One candidate returned by a retrieval route: `{"product_id": ..., "score": ...}`. -/
structure RouteCand where
  product_id : String
  score : Score
deriving Repr, DecidableEq

/-- Stable descending sort by a key: models Python
`sorted(l, key=key, reverse=True)` / `l.sort(key=key, reverse=True)`. -/
def sortedByDesc {α β : Type} [LinearOrder β] (key : α → β) (l : List α) : List α :=
  l.insertionSort (fun a b => key b ≤ key a)

/-- Stable ascending sort of strings: models Python `sorted(items)`. -/
def pySortedStrings (l : List String) : List String :=
  l.insertionSort (fun a b => pyStrLe a b = true)

/-! ### A restricted model of `ast.literal_eval`

`parse_list_like` calls Python's `ast.literal_eval` on the raw text and keeps
the result only when it is a `list` or `tuple`.  We model `ast.literal_eval`
restricted to flat lists/tuples of string and integer literals (single- or
double-quoted strings without escape sequences); any other input is a parse
failure, which in `parse_list_like` falls through to returning the trimmed
raw string, exactly as the `except Exception: pass` branch does. -/

/-- A parsed Python literal atom (string or integer). -/
inductive PyAtom where
  | str (s : String)
  | int (n : Int)
deriving Repr, DecidableEq

/-- Result of the modelled `ast.literal_eval`: a list/tuple of atoms, or a
bare atom (which `parse_list_like` does not join). -/
inductive PyLit where
  | coll (elems : List PyAtom)
  | atom (a : PyAtom)
deriving Repr, DecidableEq

/-- Python `str()` of a parsed atom. -/
def pyAtomStr : PyAtom → String
  | .str s => s
  | .int n => toString n

/-- The single-quote character. -/
def squoteC : Char := Char.ofNat 39

/-- The double-quote character. -/
def dquoteC : Char := Char.ofNat 34

/-- The backslash character. -/
def backslashC : Char := Char.ofNat 92

/-- Parse the body of a quoted string up to the closing quote `q`;
escape sequences are outside the modelled fragment. -/
def parseQuotedAux (q : Char) (acc : List Char) : List Char → Option (String × List Char)
  | [] => none
  | c :: cs =>
    if c = q then some (String.mk acc.reverse, cs)
    else if c = backslashC then none
    else parseQuotedAux q (c :: acc) cs

/-- Consume a maximal run of decimal digits. -/
def takeDigits (acc : List Char) : List Char → (List Char × List Char)
  | [] => (acc.reverse, [])
  | c :: cs => if c.isDigit then takeDigits (c :: acc) cs else (acc.reverse, c :: cs)

/-- Numeric value of a digit run. -/
def digitsToNat (ds : List Char) : Nat :=
  ds.foldl (fun n c => n * 10 + (c.toNat - (Char.ofNat 48).toNat)) 0

/-- Parse one atom (quoted string, or optionally-signed integer). -/
def parseAtom : List Char → Option (PyAtom × List Char)
  | [] => none
  | c :: rest =>
    if c = squoteC ∨ c = dquoteC then
      (parseQuotedAux c [] rest).map (fun p => (PyAtom.str p.1, p.2))
    else if c = Char.ofNat 45 then
      match rest with
      | [] => none
      | d :: _ =>
        if d.isDigit then
          let (ds, rem) := takeDigits [] rest
          some (PyAtom.int (-(digitsToNat ds : Int)), rem)
        else none
    else if c.isDigit then
      let (ds, rem) := takeDigits [] (c :: rest)
      some (PyAtom.int (digitsToNat ds), rem)
    else none

/-- Parse comma-separated atoms up to the closing bracket `close`; the middle
component records whether a trailing comma preceded the close. -/
def parseItems (close : Char) : Nat → List Char → Option (List PyAtom × Bool × List Char)
  | 0, _ => none
  | fuel + 1, cs0 =>
    match skipWs cs0 with
    | [] => none
    | c :: rest =>
      if c = close then some ([], false, rest)
      else
        match parseAtom (c :: rest) with
        | none => none
        | some (a, cs2) =>
          match skipWs cs2 with
          | [] => none
          | c2 :: rest2 =>
            if c2 = close then some ([a], false, rest2)
            else if c2 = Char.ofNat 44 then
              match skipWs rest2 with
              | [] => none
              | c3 :: rest3 =>
                if c3 = close then some ([a], true, rest3)
                else
                  match parseItems close fuel (c3 :: rest3) with
                  | none => none
                  | some (as, tr, r) => some (a :: as, tr, r)
            else none

/-- Parse a bare (parenthesis-free) comma-separated tuple running to the end
of the input; a trailing comma is allowed. -/
def parseBareItems : Nat → List Char → Option (List PyAtom)
  | 0, _ => none
  | fuel + 1, cs =>
    match parseAtom cs with
    | none => none
    | some (a, cs2) =>
      match skipWs cs2 with
      | [] => some [a]
      | c2 :: rest2 =>
        if c2 = Char.ofNat 44 then
          match skipWs rest2 with
          | [] => some [a]
          | cs3 => (parseBareItems fuel cs3).map (a :: ·)
        else none

/-- Modelled `ast.literal_eval` (see the section comment for the fragment
covered).  A parenthesized single atom without trailing comma is the atom
itself, not a tuple, matching Python. -/
def pyLiteralEval (s : String) : Option PyLit :=
  match skipWs s.data with
  | [] => none
  | c :: rest =>
    if c = Char.ofNat 91 then
      match parseItems (Char.ofNat 93) (s.length + 1) rest with
      | some (as, _, r) => if skipWs r = [] then some (PyLit.coll as) else none
      | none => none
    else if c = Char.ofNat 40 then
      match parseItems (Char.ofNat 41) (s.length + 1) rest with
      | some (as, tr, r) =>
        if skipWs r = [] then
          match as, tr with
          | [a], false => some (PyLit.atom a)
          | _, _ => some (PyLit.coll as)
        else none
      | none => none
    else
      match parseAtom (c :: rest) with
      | none => none
      | some (a, cs2) =>
        match skipWs cs2 with
        | [] => some (PyLit.atom a)
        | c2 :: rest2 =>
          if c2 = Char.ofNat 44 then
            match skipWs rest2 with
            | [] => some (PyLit.coll [a])
            | cs3 => (parseBareItems (s.length + 1) cs3).map (fun as => PyLit.coll (a :: as))
          else none

/-! ### Text normalizer (`parse_list_like`, `normalize_field_text`,
`build_combined_text_from_fields_map`) -/

/-- The fixed set of text fields of a product (`TEXT_FIELDS`). -/
def TEXT_FIELDS : List String :=
  ["labels", "features", "summary_coverage", "summary_liability",
   "summary_exclusions", "summary_provisions", "summary_services"]

/-- `parse_list_like` from `pipeline/retrieval.py`: `none` models a missing
(`None`/NaN) value; otherwise the raw value is stripped, parsed with
`ast.literal_eval`, and the elements joined with a single space when the
result is a list or tuple; in every other case (parse failure or a scalar
literal) the stripped raw string is returned. -/
def parse_list_like (value : Option String) : String :=
  match value with
  | none => ""
  | some raw =>
    let s := pyStrip raw
    if s = "" then ""
    else
      match pyLiteralEval s with
      | some (PyLit.coll xs) => joinSep " " (xs.map pyAtomStr)
      | _ => s

/-- `normalize_field_text`: list-typed fields go through `parse_list_like`;
other fields are string-cast (missing values become the empty string). -/
def normalize_field_text (field_name : String) (value : Option String) : String :=
  if field_name = "labels" ∨ field_name = "features" then parse_list_like value
  else
    match value with
    | none => ""
    | some s => s

/-- Association-list lookup of a field value, first occurrence wins
(models Python `dict` lookup). -/
def fieldLookup (r : List (String × String)) (k : String) : Option String :=
  match r with
  | [] => none
  | e :: rest => if e.1 = k then some e.2 else fieldLookup rest k

/-- Models `d.get(k, "")` on a string-valued dict. -/
def rowGet (r : List (String × String)) (k : String) : String :=
  (fieldLookup r k).getD ""

/-- `build_combined_text_from_fields_map`: normalized non-empty text fields,
in `TEXT_FIELDS` order, joined with a full-width period. -/
def build_combined_text_from_fields_map (fields_map : List (String × String)) : String :=
  joinSep "。"
    (((TEXT_FIELDS.map (fun f => normalize_field_text f (some (rowGet fields_map f)))).filter
      (fun v => v ≠ "")))

/-- `_norm_str_list`: strip each entry, drop empties (`none` models the
absent/None argument). -/
def norm_str_list (items : Option (List String)) : List String :=
  match items with
  | none => []
  | some l => (l.map pyStrip).filter (fun s => s ≠ "")

/-- `_list_cache_key`: the sorted filter list joined with a pipe. -/
def list_cache_key (items : List String) : String :=
  joinSep "|" (pySortedStrings items)

/-- The single-quote character as a string. -/
def sq : String := String.singleton squoteC

/-- Double every single-quote character (models
`s.replace(chr(39), chr(39)*2)`). -/
def replaceSq (s : String) : String :=
  String.mk (s.data.foldr (fun ch acc => if ch = squoteC then ch :: ch :: acc else ch :: acc) [])

/-- `_sql_quote`: single-quote a string, doubling embedded quotes. -/
def sql_quote (s : String) : String :=
  sq ++ replaceSq s ++ sq

/-- `_build_filter`: conjunction of the meta-exclusion, track and field
equality clauses, and optional company/channel disjunctions. -/
def build_filter (track field : String) (selected_company selected_channel : List String) : String :=
  let clauses := ["is_meta != 1", "track = " ++ sql_quote track, "field = " ++ sql_quote field]
  let clauses :=
    if selected_company ≠ [] then
      clauses ++ ["(" ++ joinSep " or " (selected_company.map (fun c => "company = " ++ sql_quote c)) ++ ")"]
    else clauses
  let clauses :=
    if selected_channel ≠ [] then
      clauses ++ ["(" ++ joinSep " or " (selected_channel.map (fun c => "channel = " ++ sql_quote c)) ++ ")"]
    else clauses
  joinSep " and " clauses

/-! ### Rank-Reciprocal Fusion (`_fuse_with_rrf`) -/

/-- `RRF_K = 60.0`. -/
def RRF_K : Score := 60

/-- The RRF contribution of one (1-based) rank: `1.0 / (RRF_K + rank)`. -/
def rrf_term (rank : Nat) : Score := 1 / (RRF_K + rank)

/-- One per-route contribution record `{route, rank, score_raw}`. -/
structure RouteDetail where
  route : String
  rank : Nat
  score_raw : Score
deriving Repr, DecidableEq

/-- The aggregate-score accumulator: an insertion-ordered association list
modelling the `defaultdict(float)` `agg_scores`. -/
abbrev AggList := List (String × Score)

/-- The per-product detail accumulator, modelling `defaultdict(list)`. -/
abbrev DetMap := List (String × List RouteDetail)

/-- `agg_scores[pid] += v` on the insertion-ordered accumulator. -/
def addAgg (l : AggList) (pid : String) (v : Score) : AggList :=
  match l with
  | [] => [(pid, v)]
  | e :: rest => if e.1 = pid then (e.1, e.2 + v) :: rest else e :: addAgg rest pid v

/-- `details[pid].append(d)` on the insertion-ordered accumulator. -/
def addDet (l : DetMap) (pid : String) (d : RouteDetail) : DetMap :=
  match l with
  | [] => [(pid, [d])]
  | e :: rest => if e.1 = pid then (e.1, e.2 ++ [d]) :: rest else e :: addDet rest pid d

/-- The inner loop of `_fuse_with_rrf`: walk one route's sorted candidate
list assigning 1-based ranks starting at `rank`, accumulating scores and
details. -/
def fuse_route_pass (route : String) : Nat → AggList × DetMap → List RouteCand → AggList × DetMap
  | _, acc, [] => acc
  | rank, acc, c :: rest =>
    fuse_route_pass route (rank + 1)
      (addAgg acc.1 c.product_id (rrf_term rank),
       addDet acc.2 c.product_id ⟨route, rank, c.score⟩) rest

/-- The aggregate-score component of `fuse_route_pass` in isolation. -/
def fuse_route_agg : Nat → AggList → List RouteCand → AggList
  | _, agg, [] => agg
  | rank, agg, c :: rest => fuse_route_agg (rank + 1) (addAgg agg c.product_id (rrf_term rank)) rest

/-- `_fuse_with_rrf`: for each route (in map insertion order) sort candidates
by raw score descending, assign 1-based ranks, accumulate `1/(RRF_K+rank)`
per product, and finally sort products by aggregate score descending
(`sorted(..., reverse=True)`, stable on accumulator insertion order). -/
def fuse_with_rrf (route_results : List (String × List RouteCand)) : AggList × DetMap :=
  let acc := route_results.foldl
    (fun acc e => fuse_route_pass e.1 1 acc (sortedByDesc (fun c => c.score) e.2)) ([], [])
  (sortedByDesc (fun e => e.2) acc.1, acc.2)

/-- Spec-side formula (§4.4 of the spec, claim C5): the total RRF
contribution that a product collects from one candidate list, ranks counted
from `rank`, one term per occurrence. -/
def route_contrib (pid : String) : Nat → List RouteCand → Score
  | _, [] => 0
  | rank, c :: rest =>
    (if c.product_id = pid then rrf_term rank else 0) + route_contrib pid (rank + 1) rest

/-- Spec-side aggregate score of claim C5: for each route, sort by raw score
descending and rank from 1; sum `1/(RRF_K + rank)` over all routes (and
occurrences) of the product. -/
def rrf_spec_score (route_results : List (String × List RouteCand)) (pid : String) : Score :=
  (route_results.map (fun e => route_contrib pid 1 (sortedByDesc (fun c => c.score) e.2))).sum

/-- 0-based index of the first occurrence of a product in a candidate list. -/
def idxOfPid (pid : String) : List RouteCand → Option Nat
  | [] => none
  | c :: rest => if c.product_id = pid then some 0 else (idxOfPid pid rest).map (· + 1)

/-- 1-based rank of a product in one route (after the descending sort), as
assigned by the fusion engine; `none` when the product is not on the route. -/
def rank_of (pid : String) (cand_list : List RouteCand) : Option Nat :=
  (idxOfPid pid (sortedByDesc (fun c => c.score) cand_list)).map (· + 1)

/-- Association lookup in the aggregate accumulator. -/
def agLookup : AggList → String → Option Score
  | [], _ => none
  | e :: rest, pid => if e.1 = pid then some e.2 else agLookup rest pid

/-- Lookup with default 0 (the `defaultdict(float)` read). -/
def agLookupD (l : AggList) (pid : String) : Score := (agLookup l pid).getD 0

/-- The aggregate-score fold of `_fuse_with_rrf` over all routes. -/
def fuse_agg (rr : List (String × List RouteCand)) (agg0 : AggList) : AggList :=
  rr.foldl (fun agg e => fuse_route_agg 1 agg (sortedByDesc (fun c => c.score) e.2)) agg0

/-! ### DashVector documents and per-route result extraction
(`_dashvector_search`, lines 289-299) -/

/-- A document returned by the Vector Index: identifier, metadata fields
(string-valued, as read back through `str()`), and an optional score
(`_extract_score` probes `score`/`_score`/`distance` and falls back to 0.0;
we model the probe's outcome as an optional score). -/
structure DVDoc where
  id : String
  fields : List (String × String)
  score : Option Score
deriving Repr, DecidableEq

/-- `_extract_score`: the document's score, or `0.0` when absent. -/
def extract_score (doc : DVDoc) : Score := doc.score.getD 0

/-- The text before the first `#` of a string: `s.split(chr(35), 1)[0]`. -/
def beforeHash (s : String) : String :=
  String.mk (s.data.takeWhile (fun c => c ≠ Char.ofNat 35))

/-- The product id derived from one matched document: the stripped explicit
`product_id` field if non-empty, otherwise the document identifier with its
`#<field>` suffix stripped (empty when the identifier is empty too). -/
def derived_pid (doc : DVDoc) : String :=
  let pid := pyStrip (rowGet doc.fields "product_id")
  if pid = "" then
    (if doc.id = "" then "" else pyStrip (beforeHash doc.id))
  else pid

/-- The result loop of `_dashvector_search`: one `(product_id, score)` entry
per matched document, skipping documents whose derived id is empty.  No
cross-document deduplication is performed. -/
def extract_route_cands (docs : List DVDoc) : List RouteCand :=
  docs.filterMap (fun doc =>
    let pid := derived_pid doc
    if pid = "" then none else some ⟨pid, extract_score doc⟩)

/-! ### Request, normalized request, response envelope -/

/-- The incoming query dict.  `none` models an absent key (or Python
`None`); list values model JSON arrays of strings. -/
structure Query where
  product_id : Option String := none
  product_name : Option String := none
  product_track : Option String := none
  product_info : Option String := none
  selected_company : Option (List String) := none
  selected_channel : Option (List String) := none
deriving Repr, DecidableEq

/-- The normalized query produced by `_validate_and_normalize_query`. -/
structure NormQuery where
  product_id : Option String
  product_name : String
  product_track : String
  product_info : String
  selected_company : List String
  selected_channel : List String
deriving Repr, DecidableEq

/-- `_validate_and_normalize_query`: required fields must be present and
non-blank (checked in `required_keys` order), `product_id` normalizes to
`None` when blank, filter lists are normalized with `_norm_str_list`. -/
def validate_and_normalize_query (q : Query) : Except String NormQuery :=
  match q.product_name with
  | none => .error "query 缺少必填字段: product_name"
  | some pn =>
    if pyStrip pn = "" then .error "query 字段 product_name 不能为空"
    else
      match q.product_track with
      | none => .error "query 缺少必填字段: product_track"
      | some pt =>
        if pyStrip pt = "" then .error "query 字段 product_track 不能为空"
        else
          match q.product_info with
          | none => .error "query 缺少必填字段: product_info"
          | some pinfo =>
            if pyStrip pinfo = "" then .error "query 字段 product_info 不能为空"
            else
              .ok
                { product_id :=
                    match q.product_id with
                    | none => none
                    | some s => if pyStrip s = "" then none else some (pyStrip s)
                  product_name := pyStrip pn
                  product_track := pyStrip pt
                  product_info := pyStrip pinfo
                  selected_company := norm_str_list q.selected_company
                  selected_channel := norm_str_list q.selected_channel }

/-- One assembled candidate (step 3 of `search_competitors`). -/
structure CandidateItem where
  product_id : String
  company : String
  channel : String
  product_name : String
  product_track : String
  combined_text : String
  fields_map : List (String × String)
  rrf_score : Score
  routes : List RouteDetail
deriving Repr, DecidableEq

/-- One final result item (step 4 of `search_competitors`); the `evidence`
sub-dict is flattened into the two `evidence_*` fields. -/
structure FinalItem where
  product_id : String
  company : String
  channel : String
  product_name : String
  product_track : String
  rerank_score : Score
  rrf_score : Score
  routes : List RouteDetail
  evidence_combined_text : String
  evidence_fields : List (String × String)
deriving Repr, DecidableEq

/-- The `detail.query` dict `{**q0, "effective_pid": ..., "parsed_fields":
..., "rerank_query_text": ...}` of success responses. -/
structure DetailQuery where
  product_id : Option String
  product_name : String
  product_track : String
  product_info : String
  selected_company : List String
  selected_channel : List String
  effective_pid : Option String
  parsed_fields : List (String × String)
  rerank_query_text : String
deriving Repr, DecidableEq

/-- The `detail` member of a response envelope; keys that a given path does
not emit are modelled as `none`. -/
structure Detail where
  candidates : List FinalItem
  dquery : Option DetailQuery := none
  query_raw : Option Query := none
  derror : Option String := none
deriving Repr, DecidableEq

/-- The `content` member of a response envelope. -/
structure Content where
  product_list : List String
  biz_dt : String
  warnings : List String
deriving Repr, DecidableEq

/-- The response envelope. -/
structure Envelope where
  status : String
  failCause : String
  content : Content
  detail : Detail
deriving Repr, DecidableEq

/-- `_wrap_response_success`. -/
def wrap_response_success (detail : Detail) (biz_dt : String) (product_list : List String)
    (warnings : List String) : Envelope :=
  { status := "SUCCESS", failCause := "",
    content := { product_list := product_list, biz_dt := biz_dt, warnings := warnings },
    detail := detail }

/-- `_wrap_response_fail` (an empty cause degrades to `unknown_error`). -/
def wrap_response_fail (detail : Detail) (biz_dt : String) (fail_cause : String) : Envelope :=
  { status := "FAIL",
    failCause := if fail_cause = "" then "unknown_error" else fail_cause,
    content := { product_list := [], biz_dt := biz_dt, warnings := [] },
    detail := detail }

/-! ### Backends and process state

The external collaborators are modelled as deterministic functions that
either answer or raise (`Except String`, the error being the exception's
message `str(e)`).  The embedding and sparse vectors themselves never
influence the control flow of the core (they are opaque payloads forwarded
to the Vector Index), so those two calls are modelled as effects whose
payload is erased; the Vector Index answer is keyed by the query text,
`top_k` and the filter expression instead. -/

/-- Configuration constants of the retrieval pipeline. -/
def TOP_K_DASHVECTOR_PER_FIELD : Nat := 80

/-- `MAX_CANDIDATES_FOR_RERANK = 100`. -/
def MAX_CANDIDATES_FOR_RERANK : Nat := 100

/-- `DEFAULT_RERANK_THRESHOLD = 0.3`. -/
def DEFAULT_RERANK_THRESHOLD : Score := 3 / 10

/-- A catalog row set indexed by `product_id` (the dataframe after
`set_index(COL_PRODUCT_ID)`). -/
abbrev Catalog := List (String × List (String × String))

/-- Generic association lookup by string key, first match wins. -/
def assocLookup {α : Type} : List (String × α) → String → Option α
  | [], _ => none
  | e :: rest, k => if e.1 = k then some e.2 else assocLookup rest k

/-- The external collaborators, as deterministic answer functions. -/
structure Backend where
  /-- `datetime.now()` rendering used by `_now_dt_str`. -/
  now : String
  /-- `_get_collection` first-time initialization (client + collection
  handle); fails when the index is unreachable or missing. -/
  collectionInit : Except String Unit
  /-- `col.fetch([META_DOC_ID_LATEST])`: the meta doc's fields, `none` when
  the doc is absent. -/
  fetchLatest : Except String (Option (List (String × String)))
  /-- The fallback `col.query(... is_meta = 1 ...)` for the meta doc. -/
  metaQueryDoc : Except String (Option DVDoc)
  /-- `emb_call` (payload erased: only success/failure matters to the core). -/
  embed : String → Except String Unit
  /-- First-time `SparseVectorEncoder()` construction + artifact load. -/
  sparseInit : Except String Unit
  /-- `encoder.encode_queries` (payload erased). -/
  sparseEncode : String → Except String Unit
  /-- `collection.query(vector, sparse_vector, topk, filter, ...)`, keyed by
  the query text, `top_k` and the filter expression. -/
  dvQuery : String → Nat → String → Except String (List DVDoc)
  /-- `rerank_call(query_text, doc_texts)`: a list of `{index, score}`. -/
  rerankCall : String → List String → Except String (List (Nat × Score))
  /-- `generate_results(product_info)` from the parser; `none` models a
  non-dict result (coerced to `{}`). -/
  generate_results : String → Except String (Option (List (String × String)))
  /-- `_load_dataframe(SQL)` followed by the `set_index` on `product_id`. -/
  load_dataframe : Except String Catalog

/-- The memo key of `_dv_result_cache`:
`(field, track, query_text, top_k, company key, channel key)`. -/
structure DVKey where
  field : String
  track : String
  query_text : String
  top_k : Nat
  company_key : String
  channel_key : String
deriving Repr, DecidableEq

/-- The response-cache key: models the `json.dumps(..., sort_keys=True)`
string, which encodes exactly these nine values injectively. -/
structure CacheKey where
  product_id : String
  product_name : String
  product_track : String
  product_info : String
  selected_company : List String
  selected_channel : List String
  rerank_threshold : Score
  max_results : Int
  biz_dt : String
deriving Repr, DecidableEq

/-- Counters of calls made to the external services. -/
structure Calls where
  vectorIndex : Nat
  embedText : Nat
  sparseText : Nat
  rerankDocs : Nat
deriving Repr, DecidableEq

/-- The process-wide mutable state: the four caches, the two lazily
initialized handles, and the backend call counters. -/
structure St where
  searchCache : List (CacheKey × Envelope)
  dvResultCache : List (DVKey × List RouteCand)
  dfCache : Option Catalog
  metaCache : Option (String × List String)
  collectionReady : Bool
  sparseReady : Bool
  calls : Calls
deriving Repr, DecidableEq

/-- The state of a freshly started process: all caches empty, nothing
initialized, no calls made. -/
def init_st : St :=
  { searchCache := [], dvResultCache := [], dfCache := none, metaCache := none,
    collectionReady := false, sparseReady := false,
    calls := { vectorIndex := 0, embedText := 0, sparseText := 0, rerankDocs := 0 } }

/-- Count one Vector Index round trip. -/
def bumpVec (st : St) : St :=
  { st with calls := { st.calls with vectorIndex := st.calls.vectorIndex + 1 } }

/-- Count one Embedding Service call. -/
def bumpEmbed (st : St) : St :=
  { st with calls := { st.calls with embedText := st.calls.embedText + 1 } }

/-- Count one Sparse Encoder call. -/
def bumpSparse (st : St) : St :=
  { st with calls := { st.calls with sparseText := st.calls.sparseText + 1 } }

/-- Count one Rerank Service call. -/
def bumpRerank (st : St) : St :=
  { st with calls := { st.calls with rerankDocs := st.calls.rerankDocs + 1 } }

/-- `_get_collection`: lazily initialize the DashVector client/collection
handle (one Vector Index round trip on first use). -/
def get_collection (b : Backend) (st : St) : Except String Unit × St :=
  if st.collectionReady then (.ok (), st)
  else
    let st := bumpVec st
    match b.collectionInit with
    | .ok _ => (.ok (), { st with collectionReady := true })
    | .error e => (.error e, st)

/-- `_get_sparse_encoder`: lazily construct the encoder and load its
artifact (a local file, not a backend network call). -/
def get_sparse_encoder (b : Backend) (st : St) : Except String Unit × St :=
  if st.sparseReady then (.ok (), st)
  else
    match b.sparseInit with
    | .ok _ => (.ok (), { st with sparseReady := true })
    | .error e => (.error e, st)

/-- `get_embedding`: empty text is replaced by a single space, then the
Embedding Service is called (the L2 normalization of the returned vector is
payload, erased here). -/
def get_embedding_eff (b : Backend) (text : String) (st : St) : Except String Unit × St :=
  let t := if text = "" then " " else text
  let st := bumpEmbed st
  match b.embed t with
  | .ok _ => (.ok (), st)
  | .error e => (.error e, st)

/-- `_get_biz_dt_from_dashvector`, the body of its `try` block: resolve the
collection, prefer `fetch` of the latest meta doc, fall back to a filtered
query (which first embeds the probe text "x"), and read `ingest_dt`; every
failure degrades to the wall-clock time plus a warning. -/
def biz_dt_try (b : Backend) (st : St) : (String × List String) × St :=
  match get_collection b st with
  | (.error e, st) => ((b.now, ["meta_read_failed:" ++ e]), st)
  | (.ok _, st) =>
    match b.fetchLatest with
    | .error e => ((b.now, ["meta_read_failed:" ++ e]), bumpVec st)
    | .ok (some metaFields) =>
      if pyStrip (rowGet metaFields "ingest_dt") ≠ "" then
        ((pyStrip (rowGet metaFields "ingest_dt"), []), bumpVec st)
      else ((b.now, ["meta_missing_ingest_dt"]), bumpVec st)
    | .ok none =>
      match get_embedding_eff b "x" (bumpVec st) with
      | (.error e, st) => ((b.now, ["meta_read_failed:" ++ e]), st)
      | (.ok _, st) =>
        match b.metaQueryDoc with
        | .error e => ((b.now, ["meta_read_failed:" ++ e]), bumpVec st)
        | .ok none => ((b.now, ["meta_doc_not_found"]), bumpVec st)
        | .ok (some doc) =>
          if pyStrip (rowGet doc.fields "ingest_dt") ≠ "" then
            ((pyStrip (rowGet doc.fields "ingest_dt"), []), bumpVec st)
          else ((b.now, ["meta_missing_ingest_dt"]), bumpVec st)

/-- `_get_biz_dt_from_dashvector` with its 60-second memo (`_meta_cache`);
within the TTL window the memo always answers. -/
def get_biz_dt_from_dashvector (b : Backend) (st : St) : (String × List String) × St :=
  match st.metaCache with
  | some v => (v, st)
  | none =>
    let r := biz_dt_try b st
    (r.1, { r.2 with metaCache := some r.1 })

/-- `_get_df`: the catalog snapshot, loaded through `_load_dataframe` and
memoized (`_df_cache`, 10-minute TTL; within the window the memo answers). -/
def get_df (b : Backend) (st : St) : Except String Catalog × St :=
  match st.dfCache with
  | some df => (.ok df, st)
  | none =>
    match b.load_dataframe with
    | .ok df => (.ok df, { st with dfCache := some df })
    | .error e => (.error e, st)

/-- `_get_product_row`: catalog lookup, raising `KeyError` on a miss. -/
def get_product_row (b : Backend) (pid : String) (st : St) : Except String (List (String × String)) × St :=
  match get_df b st with
  | (.error e, st) => (.error e, st)
  | (.ok df, st) =>
    match assocLookup df pid with
    | some row => (.ok row, st)
    | none => (.error ("product_id=" ++ pid ++ " not found"), st)

/-- `_dashvector_search`: short-circuit on blank query text, then resolve
collection and sparse encoder, embed and sparse-encode the query, issue the
hybrid Vector Index query with the conjunctive filter of `_build_filter`,
and extract one `(product_id, score)` entry per matched doc. -/
def dashvector_search (b : Backend) (field track query_text : String) (top_k : Nat)
    (selected_company selected_channel : List String) (st : St) :
    Except String (List RouteCand) × St :=
  if pyStrip query_text = "" then (.ok [], st)
  else
    match get_collection b st with
    | (.error e, st) => (.error e, st)
    | (.ok _, st) =>
      match get_sparse_encoder b st with
      | (.error e, st) => (.error e, st)
      | (.ok _, st) =>
        match get_embedding_eff b query_text st with
        | (.error e, st) => (.error e, st)
        | (.ok _, st) =>
          match b.sparseEncode query_text with
          | .error e => (.error e, bumpSparse st)
          | .ok _ =>
            match b.dvQuery query_text top_k
              (build_filter track field selected_company selected_channel) with
            | .error e => (.error e, bumpVec (bumpSparse st))
            | .ok docs => (.ok (extract_route_cands docs), bumpVec (bumpSparse st))

/-- Association lookup in the route memo. -/
def assocDVLookup : List (DVKey × List RouteCand) → DVKey → Option (List RouteCand)
  | [], _ => none
  | e :: rest, k => if e.1 = k then some e.2 else assocDVLookup rest k

/-- `_dashvector_search_cached`: process-lifetime memo keyed by
`(field, track, query_text, top_k, _list_cache_key(company),
_list_cache_key(channel))`; only successful results are stored. -/
def dashvector_search_cached (b : Backend) (field track query_text : String) (top_k : Nat)
    (selected_company selected_channel : List String) (st : St) :
    Except String (List RouteCand) × St :=
  let key : DVKey :=
    ⟨field, track, query_text, top_k, list_cache_key selected_company, list_cache_key selected_channel⟩
  match assocDVLookup st.dvResultCache key with
  | some res => (.ok res, st)
  | none =>
    match dashvector_search b field track query_text top_k selected_company selected_channel st with
    | (.ok res, st) => (.ok res, { st with dvResultCache := st.dvResultCache ++ [(key, res)] })
    | (.error e, st) => (.error e, st)

/-! ### The orchestrator (`search_competitors`) -/

/-- Step 1 of the `try` block: resolve the source text fields.  When a
`product_id` is given and its catalog row is found, the row's stored fields
are used verbatim (`effective_pid` set); any failure of the row lookup is
swallowed (`except ... product_row = None`) and the free-text `product_info`
is parsed by `generate_results` instead, with every text field defaulted to
the empty string (`setdefault`, which appends missing keys in
`TEXT_FIELDS` order). -/
def resolve_fields (b : Backend) (q0 : NormQuery) (st : St) :
    Except String (Option String × List (String × String)) × St :=
  let viaParser : St → Except String (Option String × List (String × String)) × St := fun st =>
    match b.generate_results q0.product_info with
    | .error e => (.error e, st)
    | .ok parsed =>
      let base := parsed.getD []
      (.ok (none,
        base ++ (TEXT_FIELDS.filter (fun f => fieldLookup base f = none)).map (fun f => (f, ""))), st)
  match q0.product_id with
  | none => viaParser st
  | some pid =>
    match get_product_row b pid st with
    | (.ok row, st) => (.ok (some pid, TEXT_FIELDS.map (fun f => (f, rowGet row f))), st)
    | (.error _, st) => viaParser st

/-- Step 2 of the `try` block: the multi-route recall fan-out.  One route
per text field with non-blank normalized query text; the thread-pool
execution (bounded by `min(8, len(TEXT_FIELDS))` workers) is modelled by
the sequential field-order linearization; a route that raises is dropped
silently, and routes with empty results are not recorded. -/
def run_routes (b : Backend) (track : String) (nqf : String → String) (sc sch : List String) :
    List String → St → List (String × List RouteCand) × St
  | [], st => ([], st)
  | f :: fs, st =>
    let qtext := nqf f
    if pyStrip qtext = "" then run_routes b track nqf sc sch fs st
    else
      match dashvector_search_cached b f track qtext TOP_K_DASHVECTOR_PER_FIELD sc sch st with
      | (.error _, st) => run_routes b track nqf sc sch fs st
      | (.ok cl, st) =>
        let (rest, st) := run_routes b track nqf sc sch fs st
        ((if cl = [] then rest else (f ++ "_dv_hybrid", cl) :: rest), st)

/-- `allow_company`/`allow_channel`: an empty selection list means no
filtering (`set(...) if ... else None`). -/
def optFilter (l : List String) : Option (List String) :=
  if l = [] then none else some l

/-- Membership test against an optional allow-list (`None` admits all). -/
def allowedIn (allow : Option (List String)) (v : String) : Bool :=
  match allow with
  | none => true
  | some s => decide (v ∈ s)

/-- Step 3 of the `try` block: walk the fused ranking in score order,
skipping the query's own product, stopping at `MAX_CANDIDATES_FOR_RERANK`
collected candidates, dropping ids missing from the catalog, ids filtered
out by the allow-lists, and rows with blank combined text. -/
def assemble_candidates (df : Catalog) (allowC allowCh : Option (List String))
    (epid : Option String) (det : DetMap) :
    List (String × Score) → List CandidateItem → List CandidateItem
  | [], acc => acc
  | (pid, fused_score) :: rest, acc =>
    if epid = some pid then assemble_candidates df allowC allowCh epid det rest acc
    else if MAX_CANDIDATES_FOR_RERANK ≤ acc.length then acc
    else
      match assocLookup df pid with
      | none => assemble_candidates df allowC allowCh epid det rest acc
      | some row =>
        let company := pyStrip (rowGet row "company")
        let channel := pyStrip (rowGet row "channel")
        if allowedIn allowC company = false then
          assemble_candidates df allowC allowCh epid det rest acc
        else if allowedIn allowCh channel = false then
          assemble_candidates df allowC allowCh epid det rest acc
        else
          let fields_map := TEXT_FIELDS.map (fun f => (f, rowGet row f))
          let combined := build_combined_text_from_fields_map fields_map
          if pyStrip combined = "" then
            assemble_candidates df allowC allowCh epid det rest acc
          else
            assemble_candidates df allowC allowCh epid det rest
              (acc ++ [{ product_id := pid, company := company, channel := channel,
                         product_name := rowGet row "product_name",
                         product_track := rowGet row "track",
                         combined_text := combined, fields_map := fields_map,
                         rrf_score := fused_score,
                         routes := (assocLookup det pid).getD [] }])

/-- The dict comprehension `{int(r["index"]): float(r["score"]) for r in
rerank_res}`: on duplicate indices the last entry wins. -/
def index_to_score (rs : List (Nat × Score)) (i : Nat) : Option Score :=
  (rs.reverse.find? (fun p => p.1 == i)).map Prod.snd

/-- Build one final result item from an assembled candidate and its rerank
score. -/
def mk_final_item (item : CandidateItem) (score : Score) : FinalItem :=
  { product_id := item.product_id, company := item.company, channel := item.channel,
    product_name := item.product_name, product_track := item.product_track,
    rerank_score := score, rrf_score := item.rrf_score, routes := item.routes,
    evidence_combined_text := item.combined_text,
    evidence_fields :=
      TEXT_FIELDS.map (fun f => (f, normalize_field_text f (some (rowGet item.fields_map f)))) }

/-- The rerank filtering loop (`for idx, item in enumerate(candidate_items)`),
current index `idx`: drop candidates without a returned score or scoring
below the threshold. -/
def rerank_filter_aux (rs : List (Nat × Score)) (threshold : Score) :
    Nat → List CandidateItem → List FinalItem
  | _, [] => []
  | idx, item :: rest =>
    match index_to_score rs idx with
    | none => rerank_filter_aux rs threshold (idx + 1) rest
    | some score =>
      if score < threshold then rerank_filter_aux rs threshold (idx + 1) rest
      else mk_final_item item score :: rerank_filter_aux rs threshold (idx + 1) rest

/-- The rerank threshold filter over all assembled candidates. -/
def rerank_filter (rs : List (Nat × Score)) (threshold : Score)
    (cands : List CandidateItem) : List FinalItem :=
  rerank_filter_aux rs threshold 0 cands

/-- The empty-but-successful response of the short-circuit paths (zero
routes with hits, or zero assembled candidates). -/
def empty_success (dq : DetailQuery) (biz_dt : String) (biz_warnings : List String) : Envelope :=
  wrap_response_success { candidates := [], dquery := some dq } biz_dt [] biz_warnings

/-- Step 4b: sort surviving reranked candidates by `rerank_score`
descending (stable) and truncate to `max_results` when positive
(`if max_results and max_results > 0`). -/
def finalize_rerank (rerank_threshold : Score) (max_results : Int)
    (rs : List (Nat × Score)) (cands : List CandidateItem) : List FinalItem :=
  let sorted := sortedByDesc (fun f : FinalItem => f.rerank_score)
    (rerank_filter rs rerank_threshold cands)
  if 0 < max_results then sorted.take max_results.toNat else sorted

/-- Step 4a: call the Rerank Service on the assembled candidate texts and
build the final response. -/
def pipeline_rerank (b : Backend) (rerank_threshold : Score) (max_results : Int)
    (biz_dt : String) (biz_warnings : List String) (dq : DetailQuery)
    (rerank_query_text : String) (cands : List CandidateItem) (st : St) :
    Except String Envelope × St :=
  match b.rerankCall rerank_query_text (cands.map (fun c => c.combined_text)) with
  | .error e => (.error e, bumpRerank st)
  | .ok rs =>
    (.ok (wrap_response_success
      { candidates := finalize_rerank rerank_threshold max_results rs cands, dquery := some dq }
      biz_dt ((finalize_rerank rerank_threshold max_results rs cands).map (fun f => f.product_id))
      biz_warnings), bumpRerank st)

/-- Step 3: fuse the route results, load the catalog and assemble
candidates; zero candidates short-circuit to an empty success. -/
def pipeline_assemble (b : Backend) (rerank_threshold : Score) (max_results : Int)
    (biz_dt : String) (biz_warnings : List String) (dq : DetailQuery)
    (rerank_query_text : String) (sc sch : List String) (epid : Option String)
    (route_results : List (String × List RouteCand)) (st : St) :
    Except String Envelope × St :=
  match get_df b st with
  | (.error e, st) => (.error e, st)
  | (.ok df, st) =>
    if assemble_candidates df (optFilter sc) (optFilter sch) epid
        (fuse_with_rrf route_results).2 (fuse_with_rrf route_results).1 [] = [] then
      (.ok (empty_success dq biz_dt biz_warnings), st)
    else
      pipeline_rerank b rerank_threshold max_results biz_dt biz_warnings dq rerank_query_text
        (assemble_candidates df (optFilter sc) (optFilter sch) epid
          (fuse_with_rrf route_results).2 (fuse_with_rrf route_results).1 []) st

/-- Step 2: normalize the per-field query texts, run the recall fan-out and
continue; zero non-empty routes short-circuit to an empty success. -/
def pipeline_recall (b : Backend) (q0 : NormQuery) (sc sch : List String)
    (rerank_threshold : Score) (max_results : Int) (biz_dt : String)
    (biz_warnings : List String) (epid : Option String)
    (parsed_fields : List (String × String)) (st : St) : Except String Envelope × St :=
  let nqf := fun f => normalize_field_text f (some (rowGet parsed_fields f))
  let rerank_query_text := build_combined_text_from_fields_map parsed_fields
  let dq : DetailQuery :=
    { product_id := q0.product_id, product_name := q0.product_name,
      product_track := q0.product_track, product_info := q0.product_info,
      selected_company := q0.selected_company, selected_channel := q0.selected_channel,
      effective_pid := epid, parsed_fields := parsed_fields,
      rerank_query_text := rerank_query_text }
  match run_routes b q0.product_track nqf sc sch TEXT_FIELDS st with
  | (route_results, st) =>
    if route_results = [] then (.ok (empty_success dq biz_dt biz_warnings), st)
    else pipeline_assemble b rerank_threshold max_results biz_dt biz_warnings dq
      rerank_query_text sc sch epid route_results st

/-- The `try` block of `search_competitors` after validation and the cache
probe: resolve source fields, recall, fuse, assemble, rerank, sort and
truncate; an `Except.error` is the exception reaching the orchestrator's
`except` clause. -/
def run_pipeline (b : Backend) (q0 : NormQuery) (sc sch : List String)
    (rerank_threshold : Score) (max_results : Int) (biz_dt : String)
    (biz_warnings : List String) (st : St) : Except String Envelope × St :=
  match resolve_fields b q0 st with
  | (.error e, st) => (.error e, st)
  | (.ok (epid, parsed_fields), st) =>
    pipeline_recall b q0 sc sch rerank_threshold max_results biz_dt biz_warnings epid parsed_fields st

/-- The response-cache key of one request (the `json.dumps` composite):
raw query fields, effective filter lists, threshold, result cap and the
resolved business date. -/
def mk_cache_key (query : Query) (sc sch : List String) (rerank_threshold : Score)
    (max_results : Int) (biz_dt : String) : CacheKey :=
  { product_id := query.product_id.getD "", product_name := query.product_name.getD "",
    product_track := query.product_track.getD "", product_info := query.product_info.getD "",
    selected_company := sc, selected_channel := sch,
    rerank_threshold := rerank_threshold, max_results := max_results, biz_dt := biz_dt }

/-- Association lookup in the response cache. -/
def cacheLookup : List (CacheKey × Envelope) → CacheKey → Option Envelope
  | [], _ => none
  | e :: rest, k => if e.1 = k then some e.2 else cacheLookup rest k

/-- The effective filter list: an explicit keyword argument (re-normalized)
overrides the one taken from the query. -/
def eff_filter (param : Option (List String)) (from_query : List String) : List String :=
  match param with
  | some l => norm_str_list (some l)
  | none => from_query

/-- The FAIL envelope of the `except` clause (detail carries the raw query
and the error). -/
def except_fail_env (query : Query) (biz_dt e : String) : Envelope :=
  wrap_response_fail { candidates := [], query_raw := some query, derror := some e } biz_dt e

/-- `search_competitors`: resolve freshness, validate (failures return an
uncached FAIL envelope), probe the response cache, run the pipeline, catch
any exception into a FAIL envelope carrying its message, and cache whatever
envelope the `try`/`except` produced. -/
def search_competitors (b : Backend) (query : Query) (rerank_threshold : Score)
    (max_results : Int) (selected_company selected_channel : Option (List String))
    (st : St) : Envelope × St :=
  match get_biz_dt_from_dashvector b st with
  | ((biz_dt, biz_warnings), st) =>
    match validate_and_normalize_query query with
    | .error e =>
      (wrap_response_fail { candidates := [], query_raw := some query } biz_dt e, st)
    | .ok q0 =>
      match cacheLookup st.searchCache
        (mk_cache_key query (eff_filter selected_company q0.selected_company)
          (eff_filter selected_channel q0.selected_channel) rerank_threshold max_results biz_dt) with
      | some cached => (cached, st)
      | none =>
        match run_pipeline b q0 (eff_filter selected_company q0.selected_company)
          (eff_filter selected_channel q0.selected_channel) rerank_threshold max_results
          biz_dt biz_warnings st with
        | (.ok env, st) =>
          (env, { st with searchCache := st.searchCache ++
            [(mk_cache_key query (eff_filter selected_company q0.selected_company)
              (eff_filter selected_channel q0.selected_channel) rerank_threshold max_results biz_dt,
              env)] })
        | (.error e, st) =>
          (except_fail_env query biz_dt e, { st with searchCache := st.searchCache ++
            [(mk_cache_key query (eff_filter selected_company q0.selected_company)
              (eff_filter selected_channel q0.selected_channel) rerank_threshold max_results biz_dt,
              except_fail_env query biz_dt e)] })

/-- The invariants of every success envelope produced inside the `try`
block: SUCCESS status, `product_list` mirroring the candidate ids, the
rerank threshold honored, descending order and the `max_results` cap. -/
def env_ok (rerank_threshold : Score) (max_results : Int) (env : Envelope) : Prop :=
  env.status = "SUCCESS" ∧
    env.content.product_list = env.detail.candidates.map (fun f => f.product_id) ∧
    (∀ f ∈ env.detail.candidates, rerank_threshold ≤ f.rerank_score) ∧
    List.Pairwise (fun a b : FinalItem => b.rerank_score ≤ a.rerank_score) env.detail.candidates ∧
    (0 < max_results → env.detail.candidates.length ≤ max_results.toNat)

/-! ### Stability of the response cache and the freshness memo across the
pipeline (no pipeline stage writes `_search_cache` or `_meta_cache`) -/

/-- The pipeline stages never touch the response cache or the freshness
memo. -/
def caches_stable (st st' : St) : Prop :=
  st'.searchCache = st.searchCache ∧ st'.metaCache = st.metaCache

/-- A one-route example used to instantiate the fusion theorems. -/
def rrW : List (String × List RouteCand) := [("labels_dv_hybrid", [⟨"p1", 1⟩])]

/-- A matched document without an explicit `product_id` field. -/
def docW : DVDoc := ⟨"q#labels", [], none⟩

/-- A Vector Index answering differently for the two filter expressions of
the colliding allow-lists. -/
def bC10 : Backend :=
  { now := "T0"
    collectionInit := .ok ()
    fetchLatest := .ok (some [("ingest_dt", "D1")])
    metaQueryDoc := .ok none
    embed := fun _ => .ok ()
    sparseInit := .ok ()
    sparseEncode := fun _ => .ok ()
    dvQuery := fun _ _ flt =>
      if flt = build_filter "t" "f" ["a", "b"] [] then
        .ok [⟨"x1#f", [("product_id", "x1")], none⟩]
      else
        .ok [⟨"x2#f", [("product_id", "x2")], none⟩]
    rerankCall := fun _ _ => .ok []
    generate_results := fun _ => .ok (some [])
    load_dataframe := .ok [] }

/-- A backend whose field parser raises, making the pipeline fail after
validation (the meta document itself resolves normally). -/
def bPF : Backend :=
  { now := "T0"
    collectionInit := .ok ()
    fetchLatest := .ok (some [("ingest_dt", "D1")])
    metaQueryDoc := .ok none
    embed := fun _ => .ok ()
    sparseInit := .ok ()
    sparseEncode := fun _ => .ok ()
    dvQuery := fun _ _ _ => .ok []
    rerankCall := fun _ _ => .ok []
    generate_results := fun _ => .error "boom"
    load_dataframe := .ok [] }

/-- A well-formed query. -/
def qOkW : Query :=
  { product_name := some "n", product_track := some "t", product_info := some "i" }

/-- Its normalized form. -/
def q0W : NormQuery :=
  { product_id := none, product_name := "n", product_track := "t", product_info := "i",
    selected_company := [], selected_channel := [] }

/-- A concrete assembled candidate used to instantiate the rerank-stage
theorems. -/
def candW : CandidateItem :=
  { product_id := "p", company := "c", channel := "ch", product_name := "pn",
    product_track := "t", combined_text := "text", fields_map := [],
    rrf_score := 1, routes := [] }

/-- The process state right after freshness resolution on `bPF`. -/
def stW1 : St :=
  { searchCache := [], dvResultCache := [], dfCache := none,
    metaCache := some ("D1", []), collectionReady := true, sparseReady := false,
    calls := { vectorIndex := 2, embedText := 0, sparseText := 0, rerankDocs := 0 } }

/-- A query with the required `product_name` missing. -/
def qMiss : Query := { product_track := some "t", product_info := some "i" }

/-- The cache key of the witness request. -/
def keyW : CacheKey :=
  { product_id := "", product_name := "n", product_track := "t", product_info := "i",
    selected_company := [], selected_channel := [], rerank_threshold := 0,
    max_results := 20, biz_dt := "D1" }

/-- The state after the witness call: the FAIL envelope cached. -/
def stW2 : St :=
  { searchCache := [(keyW, except_fail_env qOkW "D1" "boom")], dvResultCache := [],
    dfCache := none, metaCache := some ("D1", []), collectionReady := true,
    sparseReady := false,
    calls := { vectorIndex := 2, embedText := 0, sparseText := 0, rerankDocs := 0 } }

/-! ### Theorems -/

section SortLemmas

variable {α β : Type} [LinearOrder β] (key : α → β)

theorem sortedByDesc_perm (l : List α) : List.Perm (sortedByDesc key l) l :=
  List.perm_insertionSort _ l

theorem sortedByDesc_pairwise (l : List α) :
    List.Pairwise (fun a b => key b ≤ key a) (sortedByDesc key l) := by
  haveI : IsTotal α (fun a b => key b ≤ key a) :=
    ⟨fun a b => (le_total (key b) (key a)).imp id id⟩
  haveI : IsTrans α (fun a b => key b ≤ key a) :=
    ⟨fun _ _ _ hab hbc => le_trans hbc hab⟩
  exact List.sorted_insertionSort _ l

theorem filter_orderedInsert_key_eq (c : β) (x : α) (hx : key x = c) :
    ∀ l : List α,
      (l.orderedInsert (fun a b => key b ≤ key a) x).filter (fun a => decide (key a = c)) =
        x :: l.filter (fun a => decide (key a = c))
  | [] => by
    simp only [List.orderedInsert, List.filter_cons, List.filter_nil]
    simp [hx]
  | y :: l => by
    simp only [List.orderedInsert]
    by_cases h : key y ≤ key x
    · rw [if_pos h]
      simp only [List.filter_cons]
      simp [hx]
    · rw [if_neg h]
      have hlt : key x < key y := lt_of_not_le h
      have hyc : ¬ (key y = c) := by
        intro hyc
        rw [← hx] at hyc
        exact absurd hyc (ne_of_gt hlt)
      simp only [List.filter_cons]
      rw [if_neg (by simp [hyc]), if_neg (by simp [hyc])]
      exact filter_orderedInsert_key_eq c x hx l

theorem filter_orderedInsert_key_ne (c : β) (x : α) (hx : ¬ (key x = c)) :
    ∀ l : List α,
      (l.orderedInsert (fun a b => key b ≤ key a) x).filter (fun a => decide (key a = c)) =
        l.filter (fun a => decide (key a = c))
  | [] => by
    simp only [List.orderedInsert, List.filter_cons, List.filter_nil]
    simp [hx]
  | y :: l => by
    simp only [List.orderedInsert]
    by_cases h : key y ≤ key x
    · rw [if_pos h]
      simp only [List.filter_cons]
      rw [if_neg (by simp [hx])]
    · rw [if_neg h]
      simp only [List.filter_cons]
      rw [filter_orderedInsert_key_ne c x hx l]

/-- Stability of the descending sort: the subsequence of elements whose key is
any fixed value is unchanged, i.e. ties keep their input order. -/
theorem filter_sortedByDesc (c : β) :
    ∀ l : List α,
      (sortedByDesc key l).filter (fun a => decide (key a = c)) =
        l.filter (fun a => decide (key a = c))
  | [] => rfl
  | x :: l => by
    have e : sortedByDesc key (x :: l) =
        (sortedByDesc key l).orderedInsert (fun a b => key b ≤ key a) x := rfl
    rw [e]
    by_cases hx : key x = c
    · rw [filter_orderedInsert_key_eq key c x hx (sortedByDesc key l),
        filter_sortedByDesc c l, List.filter_cons]
      simp [hx]
    · rw [filter_orderedInsert_key_ne key c x hx (sortedByDesc key l),
        filter_sortedByDesc c l, List.filter_cons]
      simp [hx]

end SortLemmas

theorem agLookupD_addAgg (l : AggList) (q pid : String) (v : Score) :
    agLookupD (addAgg l q v) pid = agLookupD l pid + (if q = pid then v else 0) := by
  induction l with
  | nil =>
    by_cases h : q = pid <;> simp [addAgg, agLookupD, agLookup, h]
  | cons e rest ih =>
    by_cases he : e.1 = q
    · rw [addAgg, if_pos he]
      by_cases h : e.1 = pid
      · have hq : q = pid := by rw [← he, h]
        simp [agLookupD, agLookup, h, hq]
      · have hq : ¬ (q = pid) := by rw [← he]; exact h
        simp [agLookupD, agLookup, h, hq]
    · rw [addAgg, if_neg he]
      by_cases h : e.1 = pid
      · have hq : ¬ (q = pid) := by
          intro hh
          exact he (by rw [hh, h])
        simp [agLookupD, agLookup, h, hq]
      · simpa [agLookupD, agLookup, h] using ih

theorem agLookupD_fuse_route_agg (pid : String) :
    ∀ (l : List RouteCand) (rank : Nat) (agg : AggList),
      agLookupD (fuse_route_agg rank agg l) pid =
        agLookupD agg pid + route_contrib pid rank l
  | [], rank, agg => by simp [fuse_route_agg, route_contrib]
  | c :: rest, rank, agg => by
    rw [fuse_route_agg, route_contrib,
      agLookupD_fuse_route_agg pid rest (rank + 1) _,
      agLookupD_addAgg]
    by_cases h : c.product_id = pid
    · simp only [if_pos h]
      ring
    · simp only [if_neg h]
      ring

theorem fuse_route_pass_fst (route : String) :
    ∀ (l : List RouteCand) (rank : Nat) (acc : AggList × DetMap),
      (fuse_route_pass route rank acc l).1 = fuse_route_agg rank acc.1 l
  | [], _, _ => rfl
  | c :: rest, rank, acc => by
    rw [fuse_route_pass, fuse_route_agg, fuse_route_pass_fst route rest (rank + 1) _]

/-- The keys of the aggregate accumulator gained by `addAgg`. -/
theorem mem_keys_addAgg (l : AggList) (q pid : String) (v : Score) :
    pid ∈ (addAgg l q v).map Prod.fst ↔ pid ∈ l.map Prod.fst ∨ pid = q := by
  induction l with
  | nil => simp [addAgg, eq_comm]
  | cons e rest ih =>
    by_cases he : e.1 = q
    · rw [addAgg, if_pos he]
      simp only [List.map_cons, List.mem_cons]
      constructor
      · intro h
        exact Or.inl h
      · rintro (h | h)
        · exact h
        · exact Or.inl (by rw [h, ← he])
    · rw [addAgg, if_neg he]
      simp only [List.map_cons, List.mem_cons]
      rw [ih]
      tauto

theorem nodupKeys_addAgg (l : AggList) (q : String) (v : Score)
    (h : (l.map Prod.fst).Nodup) : ((addAgg l q v).map Prod.fst).Nodup := by
  induction l with
  | nil => simp [addAgg]
  | cons e rest ih =>
    simp only [List.map_cons, List.nodup_cons] at h
    by_cases he : e.1 = q
    · rw [addAgg, if_pos he]
      simp only [List.map_cons, List.nodup_cons]
      exact h
    · rw [addAgg, if_neg he]
      simp only [List.map_cons, List.nodup_cons]
      refine ⟨?_, ih h.2⟩
      intro hmem
      rcases (mem_keys_addAgg rest q e.1 v).1 hmem with hm | hm
      · exact h.1 hm
      · exact he hm

theorem agLookup_eq_of_mem (l : AggList) (pid : String) (s : Score)
    (hnd : (l.map Prod.fst).Nodup) (h : (pid, s) ∈ l) : agLookup l pid = some s := by
  induction l with
  | nil => simp at h
  | cons e rest ih =>
    simp only [List.map_cons, List.nodup_cons] at hnd
    rcases List.mem_cons.1 h with h | h
    · subst h; simp [agLookup]
    · have hne : ¬ (e.1 = pid) := by
        intro he
        exact hnd.1 (he ▸ (List.mem_map.2 ⟨(pid, s), h, rfl⟩))
      simp [agLookup, hne, ih hnd.2 h]

theorem mem_of_agLookup_eq (l : AggList) (pid : String) (s : Score)
    (h : agLookup l pid = some s) : (pid, s) ∈ l := by
  induction l with
  | nil => simp [agLookup] at h
  | cons e rest ih =>
    by_cases he : e.1 = pid
    · simp only [agLookup, if_pos he, Option.some.injEq] at h
      have hes : e = (pid, s) := by
        cases e
        simp only at he h
        rw [he, h]
      rw [hes]
      exact List.mem_cons_self _ _
    · simp only [agLookup, if_neg he] at h
      exact List.mem_cons_of_mem _ (ih h)

theorem fuse_fold_fst :
    ∀ (rr : List (String × List RouteCand)) (acc0 : AggList × DetMap),
      (rr.foldl (fun acc e => fuse_route_pass e.1 1 acc (sortedByDesc (fun c => c.score) e.2)) acc0).1 =
        fuse_agg rr acc0.1
  | [], _ => rfl
  | e :: rr, acc0 => by
    rw [List.foldl_cons, fuse_fold_fst rr _, fuse_route_pass_fst]
    simp [fuse_agg]

theorem agLookupD_fuse_agg (pid : String) :
    ∀ (rr : List (String × List RouteCand)) (agg0 : AggList),
      agLookupD (fuse_agg rr agg0) pid = agLookupD agg0 pid + rrf_spec_score rr pid
  | [], _ => by simp [fuse_agg, rrf_spec_score]
  | e :: rr, agg0 => by
    rw [fuse_agg, List.foldl_cons]
    have h1 := agLookupD_fuse_agg pid rr (fuse_route_agg 1 agg0 (sortedByDesc (fun c => c.score) e.2))
    rw [fuse_agg] at h1
    rw [h1, agLookupD_fuse_route_agg]
    simp only [rrf_spec_score, List.map_cons, List.sum_cons]
    ring

theorem mem_keys_fuse_route_agg (pid : String) :
    ∀ (l : List RouteCand) (rank : Nat) (agg : AggList),
      pid ∈ (fuse_route_agg rank agg l).map Prod.fst ↔
        pid ∈ agg.map Prod.fst ∨ pid ∈ l.map (fun c => c.product_id)
  | [], _, _ => by simp [fuse_route_agg]
  | c :: rest, rank, agg => by
    rw [fuse_route_agg, mem_keys_fuse_route_agg pid rest (rank + 1) _,
      mem_keys_addAgg]
    simp only [List.map_cons, List.mem_cons]
    tauto

theorem mem_keys_fuse_agg (pid : String) :
    ∀ (rr : List (String × List RouteCand)) (agg0 : AggList),
      pid ∈ (fuse_agg rr agg0).map Prod.fst ↔
        pid ∈ agg0.map Prod.fst ∨ ∃ e ∈ rr, pid ∈ e.2.map (fun c => c.product_id)
  | [], _ => by simp [fuse_agg]
  | e :: rr, agg0 => by
    rw [fuse_agg, List.foldl_cons]
    have h1 := mem_keys_fuse_agg pid rr (fuse_route_agg 1 agg0 (sortedByDesc (fun c => c.score) e.2))
    rw [fuse_agg] at h1
    rw [h1, mem_keys_fuse_route_agg]
    have hmem : pid ∈ (sortedByDesc (fun c => c.score) e.2).map (fun c => c.product_id) ↔
        pid ∈ e.2.map (fun c => c.product_id) :=
      ((sortedByDesc_perm (fun c => c.score) e.2).map (fun c => c.product_id)).mem_iff
    rw [hmem]
    simp only [List.mem_cons]
    constructor
    · rintro ((h | h) | ⟨e', he', hp⟩)
      · exact Or.inl h
      · exact Or.inr ⟨e, Or.inl rfl, h⟩
      · exact Or.inr ⟨e', Or.inr he', hp⟩
    · rintro (h | ⟨e', (rfl | he'), hp⟩)
      · exact Or.inl (Or.inl h)
      · exact Or.inl (Or.inr hp)
      · exact Or.inr ⟨e', he', hp⟩

theorem nodupKeys_fuse_route_agg :
    ∀ (l : List RouteCand) (rank : Nat) (agg : AggList),
      (agg.map Prod.fst).Nodup → ((fuse_route_agg rank agg l).map Prod.fst).Nodup
  | [], _, _, h => h
  | c :: rest, rank, agg, h =>
    nodupKeys_fuse_route_agg rest (rank + 1) _ (nodupKeys_addAgg _ _ _ h)

theorem nodupKeys_fuse_agg :
    ∀ (rr : List (String × List RouteCand)) (agg0 : AggList),
      (agg0.map Prod.fst).Nodup → ((fuse_agg rr agg0).map Prod.fst).Nodup
  | [], _, h => h
  | e :: rr, agg0, h => by
    rw [fuse_agg, List.foldl_cons]
    have h1 := nodupKeys_fuse_agg rr (fuse_route_agg 1 agg0 (sortedByDesc (fun c => c.score) e.2))
    rw [fuse_agg] at h1
    exact h1 (nodupKeys_fuse_route_agg _ _ _ h)

/-- Characterization of the fused output of `_fuse_with_rrf`: a pair
`(pid, s)` is in the fused list exactly when `pid` appears on some route and
`s` is the spec-side RRF aggregate score of claim C5. -/
theorem mem_fuse_with_rrf (rr : List (String × List RouteCand)) (pid : String) (s : Score) :
    (pid, s) ∈ (fuse_with_rrf rr).1 ↔
      ((∃ e ∈ rr, pid ∈ e.2.map (fun c => c.product_id)) ∧ s = rrf_spec_score rr pid) := by
  have hout : (fuse_with_rrf rr).1 = sortedByDesc (fun e : String × Score => e.2) (fuse_agg rr []) := by
    rw [fuse_with_rrf, fuse_fold_fst]
  have hperm := sortedByDesc_perm (fun e : String × Score => e.2) (fuse_agg rr [])
  have hnd : ((fuse_agg rr []).map Prod.fst).Nodup := nodupKeys_fuse_agg rr [] (by simp)
  rw [hout, hperm.mem_iff]
  constructor
  · intro hmem
    have hl := agLookup_eq_of_mem _ _ _ hnd hmem
    have hs : s = agLookupD (fuse_agg rr []) pid := by
      rw [agLookupD, hl]
      rfl
    have happ : pid ∈ (fuse_agg rr []).map Prod.fst :=
      List.mem_map.2 ⟨(pid, s), hmem, rfl⟩
    refine ⟨?_, ?_⟩
    · rcases (mem_keys_fuse_agg pid rr []).1 happ with h | h
      · simp at h
      · exact h
    · rw [hs, agLookupD_fuse_agg]
      simp [agLookupD, agLookup]
  · rintro ⟨happ, hs⟩
    have hk : pid ∈ (fuse_agg rr []).map Prod.fst :=
      (mem_keys_fuse_agg pid rr []).2 (Or.inr happ)
    rcases List.mem_map.1 hk with ⟨x, hx, hfst⟩
    have hx2 : x = (pid, x.2) := by
      cases x
      simp only at hfst
      rw [hfst]
    have hl := agLookup_eq_of_mem _ pid x.2 hnd (hx2 ▸ hx)
    have : x.2 = rrf_spec_score rr pid := by
      have := agLookupD_fuse_agg pid rr []
      rw [agLookupD, hl] at this
      simpa [agLookupD, agLookup] using this
    rw [hs, ← this]
    exact hx2 ▸ hx

/-- The fused list is sorted by aggregate score, descending. -/
theorem fuse_with_rrf_sorted (rr : List (String × List RouteCand)) :
    List.Pairwise (fun a b : String × Score => b.2 ≤ a.2) (fuse_with_rrf rr).1 := by
  have hout : (fuse_with_rrf rr).1 = sortedByDesc (fun e : String × Score => e.2) (fuse_agg rr []) := by
    rw [fuse_with_rrf, fuse_fold_fst]
  rw [hout]
  exact sortedByDesc_pairwise _ _

theorem rrf_term_pos (rank : Nat) : 0 < rrf_term rank := by
  rw [rrf_term, RRF_K]
  positivity

theorem rrf_term_anti {j k : Nat} (h : j ≤ k) : rrf_term k ≤ rrf_term j := by
  rw [rrf_term, rrf_term, RRF_K]
  have h60j : (0 : ℚ) < 60 + j := by positivity
  have hjk : (60 : ℚ) + j ≤ 60 + k := by
    have : (j : ℚ) ≤ k := by exact_mod_cast h
    linarith
  exact one_div_le_one_div_of_le h60j hjk

theorem route_contrib_nonneg (pid : String) :
    ∀ (rank : Nat) (l : List RouteCand), 0 ≤ route_contrib pid rank l
  | _, [] => le_refl _
  | rank, c :: rest => by
    rw [route_contrib]
    have h1 := route_contrib_nonneg pid (rank + 1) rest
    by_cases h : c.product_id = pid
    · rw [if_pos h]
      have := rrf_term_pos rank
      linarith
    · rw [if_neg h]
      linarith

theorem route_contrib_of_not_mem (pid : String) :
    ∀ (rank : Nat) (l : List RouteCand),
      pid ∉ l.map (fun c => c.product_id) → route_contrib pid rank l = 0
  | _, [], _ => rfl
  | rank, c :: rest, h => by
    simp only [List.map_cons, List.mem_cons] at h
    push_neg at h
    rw [route_contrib, if_neg (fun hc => h.1 hc.symm),
      route_contrib_of_not_mem pid (rank + 1) rest h.2]
    ring

theorem idxOfPid_none_iff (pid : String) :
    ∀ l : List RouteCand, idxOfPid pid l = none ↔ pid ∉ l.map (fun c => c.product_id)
  | [] => by simp [idxOfPid]
  | c :: rest => by
    by_cases h : c.product_id = pid
    · simp [idxOfPid, h]
    · simp only [idxOfPid, if_neg h, List.map_cons, List.mem_cons]
      have hmapn : (idxOfPid pid rest).map (· + 1) = none ↔ idxOfPid pid rest = none := by
        cases idxOfPid pid rest <;> simp
      rw [hmapn]
      rw [idxOfPid_none_iff pid rest]
      constructor
      · intro hn hmem
        rcases hmem with hm | hm
        · exact h hm.symm
        · exact hn hm
      · intro hn hm
        exact hn (Or.inr hm)

/-- Under per-route uniqueness of product ids, the contribution of one route
is exactly the single RRF term at the product's first index. -/
theorem route_contrib_nodup (pid : String) :
    ∀ (l : List RouteCand) (rank : Nat),
      (l.map (fun c => c.product_id)).Nodup →
      route_contrib pid rank l =
        (match idxOfPid pid l with
         | none => 0
         | some k => rrf_term (rank + k))
  | [], _, _ => rfl
  | c :: rest, rank, hnd => by
    simp only [List.map_cons, List.nodup_cons] at hnd
    by_cases h : c.product_id = pid
    · rw [route_contrib, if_pos h]
      have hnot : pid ∉ rest.map (fun c => c.product_id) := h ▸ hnd.1
      rw [route_contrib_of_not_mem pid (rank + 1) rest hnot]
      simp [idxOfPid, h]
    · rw [route_contrib, if_neg h, route_contrib_nodup pid rest (rank + 1) hnd.2,
        idxOfPid, if_neg h]
      cases hidx : idxOfPid pid rest with
      | none => simp
      | some k =>
        show (0 : Score) + rrf_term (rank + 1 + k) = rrf_term (rank + (k + 1))
        rw [zero_add]
        congr 1
        omega

/-! ### Lemmas about the rerank filter and the final sort/truncate stage -/

theorem rerank_filter_aux_mem (rs : List (Nat × Score)) (threshold : Score) :
    ∀ (cands : List CandidateItem) (k : Nat) (f : FinalItem),
      f ∈ rerank_filter_aux rs threshold k cands →
      threshold ≤ f.rerank_score ∧
        ∃ i c, c ∈ cands ∧ index_to_score rs i = some f.rerank_score ∧
          f = mk_final_item c f.rerank_score
  | [], _, _, h => by simp [rerank_filter_aux] at h
  | item :: rest, k, f, h => by
    rw [rerank_filter_aux] at h
    split at h
    · obtain ⟨h1, i, c, hc, hi, hf⟩ := rerank_filter_aux_mem rs threshold rest (k + 1) f h
      exact ⟨h1, i, c, List.mem_cons_of_mem _ hc, hi, hf⟩
    · rename_i score his
      split at h
      · obtain ⟨h1, i, c, hc, hi, hf⟩ := rerank_filter_aux_mem rs threshold rest (k + 1) f h
        exact ⟨h1, i, c, List.mem_cons_of_mem _ hc, hi, hf⟩
      · rename_i hnlt
        rcases List.mem_cons.1 h with h | h
        · subst h
          exact ⟨not_lt.1 hnlt, k, item, List.mem_cons_self _ _, his, rfl⟩
        · obtain ⟨h1, i, c, hc, hi, hf⟩ := rerank_filter_aux_mem rs threshold rest (k + 1) f h
          exact ⟨h1, i, c, List.mem_cons_of_mem _ hc, hi, hf⟩

theorem rerank_filter_mem (rs : List (Nat × Score)) (threshold : Score)
    (cands : List CandidateItem) (f : FinalItem) (h : f ∈ rerank_filter rs threshold cands) :
    threshold ≤ f.rerank_score ∧
      ∃ i c, c ∈ cands ∧ index_to_score rs i = some f.rerank_score ∧
        f = mk_final_item c f.rerank_score :=
  rerank_filter_aux_mem rs threshold cands 0 f h

theorem finalize_rerank_subset (threshold : Score) (mr : Int) (rs : List (Nat × Score))
    (cands : List CandidateItem) (f : FinalItem) (h : f ∈ finalize_rerank threshold mr rs cands) :
    f ∈ rerank_filter rs threshold cands := by
  rw [finalize_rerank] at h
  have hs : f ∈ sortedByDesc (fun f : FinalItem => f.rerank_score)
      (rerank_filter rs threshold cands) := by
    rcases em (0 < mr) with hmr | hmr
    · rw [if_pos hmr] at h
      exact (List.take_sublist _ _).mem h
    · rwa [if_neg hmr] at h
  exact (sortedByDesc_perm (fun f : FinalItem => f.rerank_score) _).mem_iff.1 hs

theorem finalize_rerank_pairwise (threshold : Score) (mr : Int) (rs : List (Nat × Score))
    (cands : List CandidateItem) :
    List.Pairwise (fun a b : FinalItem => b.rerank_score ≤ a.rerank_score)
      (finalize_rerank threshold mr rs cands) := by
  rw [finalize_rerank]
  have hpw := sortedByDesc_pairwise (fun f : FinalItem => f.rerank_score)
    (rerank_filter rs threshold cands)
  rcases em (0 < mr) with hmr | hmr
  · rw [if_pos hmr]
    exact hpw.sublist (List.take_sublist _ _)
  · rwa [if_neg hmr]

theorem finalize_rerank_length (threshold : Score) (mr : Int) (rs : List (Nat × Score))
    (cands : List CandidateItem) (hmr : 0 < mr) :
    (finalize_rerank threshold mr rs cands).length ≤ mr.toNat := by
  rw [finalize_rerank, if_pos hmr, List.length_take]
  exact min_le_left _ _

theorem env_ok_empty_success (threshold : Score) (mr : Int) (dq : DetailQuery)
    (bd : String) (bw : List String) : env_ok threshold mr (empty_success dq bd bw) := by
  refine ⟨rfl, rfl, ?_, ?_, ?_⟩
  · intro f hf
    simp [empty_success, wrap_response_success] at hf
  · exact List.Pairwise.nil
  · intro _
    simp [empty_success, wrap_response_success]

theorem pipeline_rerank_ok (b : Backend) (threshold : Score) (mr : Int)
    (bd : String) (bw : List String) (dq : DetailQuery) (rqt : String)
    (cands : List CandidateItem) (st : St) (env : Envelope) (st' : St)
    (h : pipeline_rerank b threshold mr bd bw dq rqt cands st = (.ok env, st')) :
    env_ok threshold mr env := by
  simp only [pipeline_rerank] at h
  split at h
  · simp at h
  · rename_i rs heq
    simp only [Prod.mk.injEq, Except.ok.injEq] at h
    obtain ⟨henv, _⟩ := h
    subst henv
    refine ⟨rfl, rfl, ?_, ?_, ?_⟩
    · intro f hf
      exact (rerank_filter_mem _ _ _ _ (finalize_rerank_subset _ _ _ _ _ hf)).1
    · exact finalize_rerank_pairwise _ _ _ _
    · exact finalize_rerank_length _ _ _ _

theorem pipeline_assemble_ok (b : Backend) (threshold : Score) (mr : Int)
    (bd : String) (bw : List String) (dq : DetailQuery) (rqt : String)
    (sc sch : List String) (epid : Option String)
    (route_results : List (String × List RouteCand)) (st : St) (env : Envelope) (st' : St)
    (h : pipeline_assemble b threshold mr bd bw dq rqt sc sch epid route_results st = (.ok env, st')) :
    env_ok threshold mr env := by
  simp only [pipeline_assemble] at h
  split at h
  · simp at h
  · split at h
    · simp only [Prod.mk.injEq, Except.ok.injEq] at h
      obtain ⟨henv, _⟩ := h
      subst henv
      exact env_ok_empty_success _ _ _ _ _
    · exact pipeline_rerank_ok _ _ _ _ _ _ _ _ _ _ _ h

theorem pipeline_recall_ok (b : Backend) (q0 : NormQuery) (sc sch : List String)
    (threshold : Score) (mr : Int) (bd : String) (bw : List String)
    (epid : Option String) (parsed_fields : List (String × String)) (st : St)
    (env : Envelope) (st' : St)
    (h : pipeline_recall b q0 sc sch threshold mr bd bw epid parsed_fields st = (.ok env, st')) :
    env_ok threshold mr env := by
  simp only [pipeline_recall] at h
  split at h
  · simp only [Prod.mk.injEq, Except.ok.injEq] at h
    obtain ⟨henv, _⟩ := h
    subst henv
    exact env_ok_empty_success _ _ _ _ _
  · exact pipeline_assemble_ok _ _ _ _ _ _ _ _ _ _ _ _ _ _ h

/-- Every success envelope out of the `try` block satisfies `env_ok`. -/
theorem run_pipeline_ok (b : Backend) (q0 : NormQuery) (sc sch : List String)
    (threshold : Score) (mr : Int) (bd : String) (bw : List String) (st : St)
    (env : Envelope) (st' : St)
    (h : run_pipeline b q0 sc sch threshold mr bd bw st = (.ok env, st')) :
    env_ok threshold mr env := by
  simp only [run_pipeline] at h
  split at h
  · simp at h
  · exact pipeline_recall_ok _ _ _ _ _ _ _ _ _ _ _ _ _ h

theorem caches_stable_trans {s1 s2 s3 : St}
    (h1 : caches_stable s1 s2) (h2 : caches_stable s2 s3) : caches_stable s1 s3 :=
  ⟨h2.1.trans h1.1, h2.2.trans h1.2⟩

theorem get_collection_stable (b : Backend) (st : St) :
    caches_stable st (get_collection b st).2 := by
  rw [get_collection]
  split
  · exact ⟨rfl, rfl⟩
  · split <;> exact ⟨rfl, rfl⟩

theorem get_sparse_encoder_stable (b : Backend) (st : St) :
    caches_stable st (get_sparse_encoder b st).2 := by
  rw [get_sparse_encoder]
  split
  · exact ⟨rfl, rfl⟩
  · split <;> exact ⟨rfl, rfl⟩

theorem get_embedding_eff_stable (b : Backend) (text : String) (st : St) :
    caches_stable st (get_embedding_eff b text st).2 := by
  rw [get_embedding_eff]
  split <;> exact ⟨rfl, rfl⟩

theorem get_df_stable (b : Backend) (st : St) :
    caches_stable st (get_df b st).2 := by
  rw [get_df]
  split
  · exact ⟨rfl, rfl⟩
  · split <;> exact ⟨rfl, rfl⟩

theorem get_product_row_stable (b : Backend) (pid : String) (st : St) :
    caches_stable st (get_product_row b pid st).2 := by
  rw [get_product_row]
  split
  · rename_i e st1 heq
    have h := get_df_stable b st
    rw [heq] at h
    exact h
  · rename_i df st1 heq
    have h := get_df_stable b st
    rw [heq] at h
    split <;> exact h

theorem resolve_fields_stable (b : Backend) (q0 : NormQuery) (st : St) :
    caches_stable st (resolve_fields b q0 st).2 := by
  rw [resolve_fields]
  split
  · split <;> exact ⟨rfl, rfl⟩
  · rename_i pid hpid
    split
    · rename_i row st1 heq
      have h := get_product_row_stable b pid st
      rw [heq] at h
      exact h
    · rename_i e st1 heq
      have h := get_product_row_stable b pid st
      rw [heq] at h
      split <;> exact h

theorem dashvector_search_stable (b : Backend) (field track query_text : String)
    (top_k : Nat) (sc sch : List String) (st : St) :
    caches_stable st (dashvector_search b field track query_text top_k sc sch st).2 := by
  rw [dashvector_search]
  split
  · exact ⟨rfl, rfl⟩
  · split
    · rename_i e st1 heq
      have h := get_collection_stable b st
      rw [heq] at h
      exact h
    · rename_i st1 heq
      have h1 := get_collection_stable b st
      rw [heq] at h1
      split
      · rename_i e st2 heq2
        have h2 := get_sparse_encoder_stable b st1
        rw [heq2] at h2
        exact caches_stable_trans h1 h2
      · rename_i st2 heq2
        have h2 := get_sparse_encoder_stable b st1
        rw [heq2] at h2
        split
        · rename_i e st3 heq3
          have h3 := get_embedding_eff_stable b query_text st2
          rw [heq3] at h3
          exact caches_stable_trans (caches_stable_trans h1 h2) h3
        · rename_i st3 heq3
          have h3 := get_embedding_eff_stable b query_text st2
          rw [heq3] at h3
          have h123 := caches_stable_trans (caches_stable_trans h1 h2) h3
          split
          · exact h123
          · split
            · exact h123
            · exact h123

theorem dashvector_search_cached_stable (b : Backend) (field track query_text : String)
    (top_k : Nat) (sc sch : List String) (st : St) :
    caches_stable st (dashvector_search_cached b field track query_text top_k sc sch st).2 := by
  rw [dashvector_search_cached]
  split
  · exact ⟨rfl, rfl⟩
  · split
    · rename_i res st1 heq
      have h := dashvector_search_stable b field track query_text top_k sc sch st
      rw [heq] at h
      exact h
    · rename_i e st1 heq
      have h := dashvector_search_stable b field track query_text top_k sc sch st
      rw [heq] at h
      exact h

theorem run_routes_stable (b : Backend) (track : String) (nqf : String → String)
    (sc sch : List String) :
    ∀ (fields : List String) (st : St),
      caches_stable st (run_routes b track nqf sc sch fields st).2
  | [], _ => ⟨rfl, rfl⟩
  | f :: fs, st => by
    rw [run_routes]
    split
    · exact run_routes_stable b track nqf sc sch fs st
    · split
      · rename_i e st1 heq
        have h := dashvector_search_cached_stable b f track (nqf f)
          TOP_K_DASHVECTOR_PER_FIELD sc sch st
        rw [heq] at h
        exact caches_stable_trans h (run_routes_stable b track nqf sc sch fs st1)
      · rename_i cl st1 heq
        have h := dashvector_search_cached_stable b f track (nqf f)
          TOP_K_DASHVECTOR_PER_FIELD sc sch st
        rw [heq] at h
        have h2 := run_routes_stable b track nqf sc sch fs st1
        split
        rename_i rest2 st2 heq2
        rw [heq2] at h2
        exact caches_stable_trans h h2

theorem pipeline_rerank_stable (b : Backend) (threshold : Score) (mr : Int)
    (bd : String) (bw : List String) (dq : DetailQuery) (rqt : String)
    (cands : List CandidateItem) (st : St) :
    caches_stable st (pipeline_rerank b threshold mr bd bw dq rqt cands st).2 := by
  rw [pipeline_rerank]
  split <;> exact ⟨rfl, rfl⟩

theorem pipeline_assemble_stable (b : Backend) (threshold : Score) (mr : Int)
    (bd : String) (bw : List String) (dq : DetailQuery) (rqt : String)
    (sc sch : List String) (epid : Option String)
    (route_results : List (String × List RouteCand)) (st : St) :
    caches_stable st (pipeline_assemble b threshold mr bd bw dq rqt sc sch epid route_results st).2 := by
  rw [pipeline_assemble]
  split
  · rename_i e st1 heq
    have h := get_df_stable b st
    rw [heq] at h
    exact h
  · rename_i df st1 heq
    have h := get_df_stable b st
    rw [heq] at h
    split
    · exact h
    · exact caches_stable_trans h (pipeline_rerank_stable b threshold mr bd bw dq rqt _ st1)

theorem pipeline_recall_stable (b : Backend) (q0 : NormQuery) (sc sch : List String)
    (threshold : Score) (mr : Int) (bd : String) (bw : List String)
    (epid : Option String) (parsed_fields : List (String × String)) (st : St) :
    caches_stable st (pipeline_recall b q0 sc sch threshold mr bd bw epid parsed_fields st).2 := by
  rw [pipeline_recall]
  have h := run_routes_stable b q0.product_track
    (fun f => normalize_field_text f (some (rowGet parsed_fields f))) sc sch TEXT_FIELDS st
  split
  rename_i route_results1 st1 heq
  rw [heq] at h
  split
  · exact h
  · exact caches_stable_trans h
      (pipeline_assemble_stable b threshold mr bd bw _ _ sc sch epid route_results1 st1)

theorem run_pipeline_stable (b : Backend) (q0 : NormQuery) (sc sch : List String)
    (threshold : Score) (mr : Int) (bd : String) (bw : List String) (st : St) :
    caches_stable st (run_pipeline b q0 sc sch threshold mr bd bw st).2 := by
  rw [run_pipeline]
  split
  · rename_i e st1 heq
    have h := resolve_fields_stable b q0 st
    rw [heq] at h
    exact h
  · rename_i epid parsed_fields st1 heq
    have h := resolve_fields_stable b q0 st
    rw [heq] at h
    exact caches_stable_trans h
      (pipeline_recall_stable b q0 sc sch threshold mr bd bw epid parsed_fields st1)

/-- After `_get_biz_dt_from_dashvector`, the freshness memo holds exactly
the returned value. -/
theorem get_biz_dt_memo (b : Backend) (st : St) :
    (get_biz_dt_from_dashvector b st).2.metaCache = some (get_biz_dt_from_dashvector b st).1 := by
  rw [get_biz_dt_from_dashvector]
  split
  · rename_i v heq
    exact heq
  · rfl

/-- A warm freshness memo answers directly, leaving the state unchanged. -/
theorem get_biz_dt_warm (b : Backend) (st : St) (v : String × List String)
    (h : st.metaCache = some v) : get_biz_dt_from_dashvector b st = (v, st) := by
  rw [get_biz_dt_from_dashvector, h]

/-- `get_biz_dt` never touches the response cache. -/
theorem get_biz_dt_searchCache (b : Backend) (st : St) :
    (get_biz_dt_from_dashvector b st).2.searchCache = st.searchCache := by
  rw [get_biz_dt_from_dashvector]
  split
  · rfl
  · show (biz_dt_try b st).2.searchCache = st.searchCache
    rw [biz_dt_try]
    split
    · rename_i e st1 heq
      have h := get_collection_stable b st
      rw [heq] at h
      exact h.1
    · rename_i st1 heq
      have h1 := get_collection_stable b st
      rw [heq] at h1
      split
      · exact h1.1
      · split <;> exact h1.1
      · split
        · rename_i e st2 heq2
          have h2 := get_embedding_eff_stable b "x" (bumpVec st1)
          rw [heq2] at h2
          exact (caches_stable_trans h1 h2).1
        · rename_i st2 heq2
          have h2 := get_embedding_eff_stable b "x" (bumpVec st1)
          rw [heq2] at h2
          have h12 := (caches_stable_trans h1 h2).1
          split
          · exact h12
          · exact h12
          · split <;> exact h12

/-- Appending a fresh entry makes the previously-missing key hit. -/
theorem cacheLookup_append (l : List (CacheKey × Envelope)) (k : CacheKey) (env : Envelope)
    (h : cacheLookup l k = none) : cacheLookup (l ++ [(k, env)]) k = some env := by
  induction l with
  | nil => simp [cacheLookup]
  | cons e rest ih =>
    rw [cacheLookup] at h
    rcases em (e.1 = k) with he | he
    · rw [if_pos he] at h
      cases h
    · rw [if_neg he] at h
      rw [List.cons_append, cacheLookup, if_neg he]
      exact ih h

/-! ### Branch characterizations of `search_competitors` -/

theorem cacheLookup_mem (l : List (CacheKey × Envelope)) (k : CacheKey) (env : Envelope)
    (h : cacheLookup l k = some env) : (k, env) ∈ l := by
  induction l with
  | nil => simp [cacheLookup] at h
  | cons e rest ih =>
    rw [cacheLookup] at h
    rcases em (e.1 = k) with he | he
    · rw [if_pos he] at h
      injection h with h2
      have he2 : e = (k, env) := by
        cases e
        simp only at he h2
        rw [he, h2]
      rw [he2] at *
      exact List.mem_cons_self _ _
    · rw [if_neg he] at h
      exact List.mem_cons_of_mem _ (ih h)

theorem search_validation_fail (b : Backend) (query : Query) (threshold : Score)
    (mr : Int) (oc och : Option (List String)) (st : St) (bd : String)
    (bw : List String) (st1 : St) (e : String)
    (hbiz : get_biz_dt_from_dashvector b st = ((bd, bw), st1))
    (hv : validate_and_normalize_query query = .error e) :
    search_competitors b query threshold mr oc och st =
      (wrap_response_fail { candidates := [], query_raw := some query } bd e, st1) := by
  rw [search_competitors, hbiz, hv]

theorem search_cache_hit (b : Backend) (query : Query) (threshold : Score)
    (mr : Int) (oc och : Option (List String)) (st : St) (bd : String)
    (bw : List String) (st1 : St) (q0 : NormQuery) (env : Envelope)
    (hbiz : get_biz_dt_from_dashvector b st = ((bd, bw), st1))
    (hv : validate_and_normalize_query query = .ok q0)
    (hhit : cacheLookup st1.searchCache
      (mk_cache_key query (eff_filter oc q0.selected_company)
        (eff_filter och q0.selected_channel) threshold mr bd) = some env) :
    search_competitors b query threshold mr oc och st = (env, st1) := by
  simp only [search_competitors, hbiz, hv, hhit]

theorem search_pipeline_ok_shape (b : Backend) (query : Query) (threshold : Score)
    (mr : Int) (oc och : Option (List String)) (st : St) (bd : String)
    (bw : List String) (st1 : St) (q0 : NormQuery) (env : Envelope) (st2 : St)
    (hbiz : get_biz_dt_from_dashvector b st = ((bd, bw), st1))
    (hv : validate_and_normalize_query query = .ok q0)
    (hmiss : cacheLookup st1.searchCache
      (mk_cache_key query (eff_filter oc q0.selected_company)
        (eff_filter och q0.selected_channel) threshold mr bd) = none)
    (hrun : run_pipeline b q0 (eff_filter oc q0.selected_company)
      (eff_filter och q0.selected_channel) threshold mr bd bw st1 = (.ok env, st2)) :
    search_competitors b query threshold mr oc och st =
      (env, { st2 with searchCache := st2.searchCache ++
        [(mk_cache_key query (eff_filter oc q0.selected_company)
          (eff_filter och q0.selected_channel) threshold mr bd, env)] }) := by
  simp only [search_competitors, hbiz, hv, hmiss, hrun]

theorem search_pipeline_error_shape (b : Backend) (query : Query) (threshold : Score)
    (mr : Int) (oc och : Option (List String)) (st : St) (bd : String)
    (bw : List String) (st1 : St) (q0 : NormQuery) (e : String) (st2 : St)
    (hbiz : get_biz_dt_from_dashvector b st = ((bd, bw), st1))
    (hv : validate_and_normalize_query query = .ok q0)
    (hmiss : cacheLookup st1.searchCache
      (mk_cache_key query (eff_filter oc q0.selected_company)
        (eff_filter och q0.selected_channel) threshold mr bd) = none)
    (hrun : run_pipeline b q0 (eff_filter oc q0.selected_company)
      (eff_filter och q0.selected_channel) threshold mr bd bw st1 = (.error e, st2)) :
    search_competitors b query threshold mr oc och st =
      (except_fail_env query bd e, { st2 with searchCache := st2.searchCache ++
        [(mk_cache_key query (eff_filter oc q0.selected_company)
          (eff_filter och q0.selected_channel) threshold mr bd,
          except_fail_env query bd e)] }) := by
  simp only [search_competitors, hbiz, hv, hmiss, hrun]

/-! ### Claims C5-C8, C10 -/

/-- C5: `_fuse_with_rrf` sorts each route's candidates by raw score
descending, assigns 1-based ranks, accumulates `1/(60.0 + rank)` per
product over all routes it appears in (the formula `rrf_spec_score`), and
returns the product list sorted by aggregate score descending; exactly the
products appearing on some route are listed. -/
theorem C5_rrf_fusion_spec (route_results : List (String × List RouteCand)) :
    (∀ pid s, (pid, s) ∈ (fuse_with_rrf route_results).1 →
      s = rrf_spec_score route_results pid) ∧
    List.Pairwise (fun a b : String × Score => b.2 ≤ a.2) (fuse_with_rrf route_results).1 ∧
    (∀ pid, (∃ s, (pid, s) ∈ (fuse_with_rrf route_results).1) ↔
      ∃ e ∈ route_results, pid ∈ e.2.map (fun c => c.product_id)) := by
  refine ⟨?_, fuse_with_rrf_sorted _, ?_⟩
  · intro pid s h
    exact ((mem_fuse_with_rrf _ _ _).1 h).2
  · intro pid
    constructor
    · rintro ⟨s, hs⟩
      exact ((mem_fuse_with_rrf _ _ _).1 hs).1
    · intro happ
      exact ⟨rrf_spec_score route_results pid,
        (mem_fuse_with_rrf _ _ _).2 ⟨happ, rfl⟩⟩

/-- C5 witness: on a concrete route-results map the fused list carries the
product that appears on the route. -/
theorem C5_rrf_fusion_spec_witness :
    ∃ s, ("p1", s) ∈ (fuse_with_rrf rrW).1 :=
  ((C5_rrf_fusion_spec rrW).2.2 "p1").2 (by decide)

/-- C6: RRF monotonicity.  If, on every route where B appears, A appears
with an equal-or-better (smaller) 1-based rank — in particular whenever A
appears on a superset of B's routes at equal-or-better ranks — then A's
fused aggregate score is at least B's, both for the spec-side formula and
for the scores listed in the fused output (per-route unique product ids
assumed, as produced by one vector-index query per field). -/
theorem C6_rrf_monotonicity (route_results : List (String × List RouteCand)) (A B : String)
    (hnd : ∀ e ∈ route_results, (e.2.map (fun c => c.product_id)).Nodup)
    (hsub : ∀ e ∈ route_results, ∀ i, rank_of B e.2 = some i →
      ∃ j, rank_of A e.2 = some j ∧ j ≤ i) :
    rrf_spec_score route_results B ≤ rrf_spec_score route_results A ∧
    (∀ sA sB, (A, sA) ∈ (fuse_with_rrf route_results).1 →
      (B, sB) ∈ (fuse_with_rrf route_results).1 → sB ≤ sA) := by
  have hroute : ∀ e ∈ route_results,
      route_contrib B 1 (sortedByDesc (fun c => c.score) e.2) ≤
        route_contrib A 1 (sortedByDesc (fun c => c.score) e.2) := by
    intro e he
    have hnds : ((sortedByDesc (fun c => c.score) e.2).map (fun c => c.product_id)).Nodup := by
      have hperm := (sortedByDesc_perm (fun c => c.score) e.2).map (fun c => c.product_id)
      exact hperm.nodup_iff.2 (hnd e he)
    rw [route_contrib_nodup B _ 1 hnds, route_contrib_nodup A _ 1 hnds]
    cases hB : idxOfPid B (sortedByDesc (fun c => c.score) e.2) with
    | none =>
      have hnn := route_contrib_nonneg A 1 (sortedByDesc (fun c => c.score) e.2)
      rw [route_contrib_nodup A _ 1 hnds] at hnn
      exact hnn
    | some i =>
      obtain ⟨j, hj, hji⟩ := hsub e he (i + 1) (by rw [rank_of, hB]; rfl)
      rw [rank_of] at hj
      cases hA : idxOfPid A (sortedByDesc (fun c => c.score) e.2) with
      | none =>
        rw [hA] at hj
        cases hj
      | some jA =>
        rw [hA] at hj
        have hj' : jA + 1 = j := by
          injection hj
        have hjA : jA ≤ i := by omega
        exact rrf_term_anti (by omega : 1 + jA ≤ 1 + i)
  constructor
  · rw [rrf_spec_score, rrf_spec_score]
    exact List.sum_le_sum hroute
  · intro sA sB hA hB
    have hsA := ((mem_fuse_with_rrf _ _ _).1 hA).2
    have hsB := ((mem_fuse_with_rrf _ _ _).1 hB).2
    rw [hsA, hsB, rrf_spec_score, rrf_spec_score]
    exact List.sum_le_sum hroute

/-- C6 witness: concrete map where B is on no route, A on one. -/
theorem C6_rrf_monotonicity_witness :
    rrf_spec_score rrW "b" ≤ rrf_spec_score rrW "p1" :=
  (C6_rrf_monotonicity rrW "p1" "b" (by decide)
    (fun e he i hi => by
      simp only [rrW, List.mem_singleton] at he
      subst he
      exact Option.noConfusion hi)).1

/-- C7 counterexample: the claim predicts `parse_list_like("a,b") = "a b"`
(comma-split fallback); the code returns the trimmed raw string `"a,b"`. -/
theorem C7_counterexample :
    parse_list_like (some "a,b") = "a,b" ∧ ("a,b" : String) ≠ "a b" := by
  constructor
  · decide
  · decide

/-- C7 (amended): `parse_list_like` attempts only a source-language
(Python) literal parse; a list or tuple literal is joined with single
spaces, and every other input — including plain comma-separated text, for
which no comma-split fallback exists — yields the trimmed raw string
(missing values yield the empty string). -/
theorem C7_amended :
    (∀ s : String, pyLiteralEval (pyStrip s) = none →
      parse_list_like (some s) = pyStrip s) ∧
    (∀ s xs, pyLiteralEval (pyStrip s) = some (PyLit.coll xs) → ¬ (pyStrip s = "") →
      parse_list_like (some s) = joinSep " " (xs.map pyAtomStr)) ∧
    parse_list_like none = "" ∧
    parse_list_like (some "[\"a\", \"b\"]") = "a b" ∧
    parse_list_like (some "(1, 2)") = "1 2" ∧
    parse_list_like (some "a,b") = "a,b" := by
  refine ⟨?_, ?_, by decide, by decide, by decide, by decide⟩
  · intro s hnone
    rw [parse_list_like]
    rcases em (pyStrip s = "") with he | he
    · rw [if_pos he, he]
    · rw [if_neg he, hnone]
  · intro s xs hcoll he
    rw [parse_list_like, if_neg he, hcoll]

/-- C7 witness: the parse-failure fallback at the concrete input `"a,b"`. -/
theorem C7_amended_witness : parse_list_like (some "a,b") = pyStrip "a,b" :=
  C7_amended.1 "a,b" (by decide)

/-- C8 counterexample: two matched documents carrying the same
`product_id` both survive — `_dashvector_search` performs no deduplication,
contradicting the claim that each product id appears at most once. -/
theorem C8_counterexample :
    extract_route_cands
        [⟨"p#labels", [("product_id", "p")], none⟩,
         ⟨"p#features", [("product_id", "p")], none⟩] =
      [⟨"p", 0⟩, ⟨"p", 0⟩] ∧
    ¬ ((extract_route_cands
        [⟨"p#labels", [("product_id", "p")], none⟩,
         ⟨"p#features", [("product_id", "p")], none⟩]).map (fun c => c.product_id)).Nodup := by
  constructor
  · decide
  · decide

/-- C8 (amended): each matched document yields at most one result entry,
whose id is the stripped explicit `product_id` field or, when that is
empty, the document identifier with its `#<field>` suffix stripped;
documents whose derived id is empty are skipped; no cross-document
deduplication is performed, so distinct documents sharing a product id each
contribute an entry. -/
theorem C8_amended (docs : List DVDoc) :
    (∀ c ∈ extract_route_cands docs,
      ∃ d ∈ docs, c.product_id = derived_pid d ∧ ¬ (derived_pid d = "") ∧
        c.score = extract_score d) ∧
    (extract_route_cands docs).length ≤ docs.length ∧
    (∀ d ∈ docs, ¬ (derived_pid d = "") →
      (⟨derived_pid d, extract_score d⟩ : RouteCand) ∈ extract_route_cands docs) := by
  refine ⟨?_, ?_, ?_⟩
  · intro c hc
    rw [extract_route_cands] at hc
    obtain ⟨d, hd, hfd⟩ := List.mem_filterMap.1 hc
    rcases em (derived_pid d = "") with he | he
    · simp only [he, if_pos rfl] at hfd
      cases hfd
    · simp only [if_neg he, Option.some.injEq] at hfd
      refine ⟨d, hd, ?_, he, ?_⟩
      · rw [← hfd]
      · rw [← hfd]
  · exact List.length_filterMap_le _ _
  · intro d hd he
    rw [extract_route_cands]
    exact List.mem_filterMap.2 ⟨d, hd, by simp only [if_neg he]⟩

/-- C8 witness: the `#<field>`-suffix derivation at a concrete document. -/
theorem C8_amended_witness :
    derived_pid docW = "q" ∧
      (⟨derived_pid docW, extract_score docW⟩ : RouteCand) ∈ extract_route_cands [docW] :=
  ⟨by decide, (C8_amended [docW]).2.2 docW (by decide) (by decide)⟩

/-- C10: `_list_cache_key` is not injective — the distinct allow-lists
`["a|b"]` and `["a", "b"]` share the key `"a|b"` — and consequently
`_dashvector_search_cached` can serve one filter set the memoized results
of the other: after a query with companies `["a", "b"]` is memoized, the
same query with company `["a|b"]` returns the memoized `x1` result even
though a direct (uncached) search under that filter returns `x2`. -/
theorem C10_cache_key_collision :
    list_cache_key ["a|b"] = list_cache_key ["a", "b"] ∧
    (["a|b"] : List String) ≠ ["a", "b"] ∧
    (dashvector_search_cached bC10 "f" "t" "q" 80 ["a", "b"] [] init_st).1 =
      .ok [⟨"x1", 0⟩] ∧
    (dashvector_search bC10 "f" "t" "q" 80 ["a|b"] [] init_st).1 = .ok [⟨"x2", 0⟩] ∧
    (dashvector_search_cached bC10 "f" "t" "q" 80 ["a|b"] []
      (dashvector_search_cached bC10 "f" "t" "q" 80 ["a", "b"] [] init_st).2).1 =
      .ok [⟨"x1", 0⟩] := by
  refine ⟨by decide, by decide, rfl, rfl, rfl⟩

/-! ### Claims C1-C4, C9 -/

theorem get_collection_sr (b : Backend) (st : St) :
    (get_collection b st).2.calls.sparseText = st.calls.sparseText ∧
    (get_collection b st).2.calls.rerankDocs = st.calls.rerankDocs := by
  rw [get_collection]
  split
  · exact ⟨rfl, rfl⟩
  · split <;> exact ⟨rfl, rfl⟩

theorem get_embedding_eff_sr (b : Backend) (text : String) (st : St) :
    (get_embedding_eff b text st).2.calls.sparseText = st.calls.sparseText ∧
    (get_embedding_eff b text st).2.calls.rerankDocs = st.calls.rerankDocs := by
  rw [get_embedding_eff]
  split <;> exact ⟨rfl, rfl⟩

/-- Freshness resolution never calls the Sparse Encoder or the Rerank
Service. -/
theorem get_biz_dt_no_sparse_rerank (b : Backend) (st : St) :
    (get_biz_dt_from_dashvector b st).2.calls.sparseText = st.calls.sparseText ∧
    (get_biz_dt_from_dashvector b st).2.calls.rerankDocs = st.calls.rerankDocs := by
  rw [get_biz_dt_from_dashvector]
  split
  · exact ⟨rfl, rfl⟩
  · show (biz_dt_try b st).2.calls.sparseText = st.calls.sparseText ∧
      (biz_dt_try b st).2.calls.rerankDocs = st.calls.rerankDocs
    rw [biz_dt_try]
    split
    · rename_i e st1 heq
      have h := get_collection_sr b st
      rw [heq] at h
      exact h
    · rename_i st1 heq
      have h1 := get_collection_sr b st
      rw [heq] at h1
      split
      · exact h1
      · split <;> exact h1
      · split
        · rename_i e st2 heq2
          have h2 := get_embedding_eff_sr b "x" (bumpVec st1)
          rw [heq2] at h2
          exact ⟨h2.1.trans h1.1, h2.2.trans h1.2⟩
        · rename_i st2 heq2
          have h2 := get_embedding_eff_sr b "x" (bumpVec st1)
          rw [heq2] at h2
          have h12 : (bumpVec st2).calls.sparseText = st.calls.sparseText ∧
              (bumpVec st2).calls.rerankDocs = st.calls.rerankDocs :=
            ⟨h2.1.trans h1.1, h2.2.trans h1.2⟩
          split
          · exact h12
          · exact h12
          · split <;> exact h12

/-- C1: `search_competitors` always returns a response envelope (status
SUCCESS or FAIL, assuming every cached envelope also has one of the two
statuses), and any exception raised inside the `try` block after validation
is converted into a FAIL envelope whose `failCause` carries the exception's
message (an empty message degrades to `unknown_error`); nothing is ever
re-raised to the caller — in the model, the function is total. -/
theorem C1_exceptions_to_fail_envelope (b : Backend) (query : Query) (threshold : Score)
    (mr : Int) (oc och : Option (List String)) (st : St)
    (hwf : ∀ kv ∈ st.searchCache, (kv.2).status = "SUCCESS" ∨ (kv.2).status = "FAIL") :
    ((search_competitors b query threshold mr oc och st).1.status = "SUCCESS" ∨
      (search_competitors b query threshold mr oc och st).1.status = "FAIL") ∧
    (∀ bd bw st1 q0 e st2,
      get_biz_dt_from_dashvector b st = ((bd, bw), st1) →
      validate_and_normalize_query query = .ok q0 →
      cacheLookup st1.searchCache
        (mk_cache_key query (eff_filter oc q0.selected_company)
          (eff_filter och q0.selected_channel) threshold mr bd) = none →
      run_pipeline b q0 (eff_filter oc q0.selected_company)
        (eff_filter och q0.selected_channel) threshold mr bd bw st1 = (.error e, st2) →
      (search_competitors b query threshold mr oc och st).1 = except_fail_env query bd e ∧
      (search_competitors b query threshold mr oc och st).1.status = "FAIL" ∧
      (¬ (e = "") → (search_competitors b query threshold mr oc och st).1.failCause = e)) := by
  constructor
  · rcases hbiz : get_biz_dt_from_dashvector b st with ⟨⟨bd, bw⟩, st1⟩
    have hsc1 : st1.searchCache = st.searchCache := by
      have h := get_biz_dt_searchCache b st
      rw [hbiz] at h
      exact h
    cases hv : validate_and_normalize_query query with
    | error e =>
      rw [search_validation_fail b query threshold mr oc och st bd bw st1 e hbiz hv]
      exact Or.inr rfl
    | ok q0 =>
      cases hlk : cacheLookup st1.searchCache
          (mk_cache_key query (eff_filter oc q0.selected_company)
            (eff_filter och q0.selected_channel) threshold mr bd) with
      | some env =>
        rw [search_cache_hit b query threshold mr oc och st bd bw st1 q0 env hbiz hv hlk]
        have hmem : ((mk_cache_key query (eff_filter oc q0.selected_company)
            (eff_filter och q0.selected_channel) threshold mr bd), env) ∈ st.searchCache := by
          rw [← hsc1]
          exact cacheLookup_mem _ _ _ hlk
        exact hwf _ hmem
      | none =>
        rcases hrun : run_pipeline b q0 (eff_filter oc q0.selected_company)
            (eff_filter och q0.selected_channel) threshold mr bd bw st1 with ⟨res, st2⟩
        cases res with
        | ok env =>
          rw [search_pipeline_ok_shape b query threshold mr oc och st bd bw st1 q0 env st2
            hbiz hv hlk hrun]
          exact Or.inl (run_pipeline_ok b q0 _ _ threshold mr bd bw st1 env st2 hrun).1
        | error e =>
          rw [search_pipeline_error_shape b query threshold mr oc och st bd bw st1 q0 e st2
            hbiz hv hlk hrun]
          exact Or.inr rfl
  · intro bd bw st1 q0 e st2 hbiz hv hmiss hrun
    rw [search_pipeline_error_shape b query threshold mr oc och st bd bw st1 q0 e st2
      hbiz hv hmiss hrun]
    refine ⟨rfl, rfl, ?_⟩
    intro he
    show (if e = "" then "unknown_error" else e) = e
    rw [if_neg he]

/-- C1 witness: at a concrete backend whose parser raises `"boom"`, the
call returns a FAIL envelope carrying that message. -/
theorem C1_exceptions_to_fail_envelope_witness :
    (search_competitors bPF qOkW 0 20 none none init_st).1 = except_fail_env qOkW "D1" "boom" ∧
    (search_competitors bPF qOkW 0 20 none none init_st).1.status = "FAIL" ∧
    (¬ (("boom" : String) = "") →
      (search_competitors bPF qOkW 0 20 none none init_st).1.failCause = "boom") :=
  (C1_exceptions_to_fail_envelope bPF qOkW 0 20 none none init_st
    (by intro kv hkv; cases hkv)).2 "D1" [] stW1 q0W "boom" stW1 rfl rfl rfl rfl

/-- C2 (amended): a query that fails validation yields a FAIL envelope
whose `failCause` names the offending field, and the call performs no work
beyond business-date (freshness) resolution — which runs before validation
and may call the Vector Index and, on its fallback path, the Embedding
Service; in particular no route search, sparse encoding or rerank call is
ever made (the final state is exactly the post-freshness state, and
freshness resolution never touches the Sparse Encoder or Rerank Service). -/
theorem C2_validation_failure_short_circuit (b : Backend) (query : Query)
    (threshold : Score) (mr : Int) (oc och : Option (List String)) (st : St) (e : String)
    (hv : validate_and_normalize_query query = .error e) :
    search_competitors b query threshold mr oc och st =
      (wrap_response_fail { candidates := [], query_raw := some query }
        (get_biz_dt_from_dashvector b st).1.1 e,
       (get_biz_dt_from_dashvector b st).2) ∧
    (search_competitors b query threshold mr oc och st).1.status = "FAIL" ∧
    (¬ (e = "") → (search_competitors b query threshold mr oc och st).1.failCause = e) ∧
    (query.product_name = none → e = "query 缺少必填字段: product_name") ∧
    (get_biz_dt_from_dashvector b st).2.calls.sparseText = st.calls.sparseText ∧
    (get_biz_dt_from_dashvector b st).2.calls.rerankDocs = st.calls.rerankDocs := by
  have hshape := search_validation_fail b query threshold mr oc och st
    (get_biz_dt_from_dashvector b st).1.1 (get_biz_dt_from_dashvector b st).1.2
    (get_biz_dt_from_dashvector b st).2 e rfl hv
  refine ⟨hshape, ?_, ?_, ?_, (get_biz_dt_no_sparse_rerank b st).1,
    (get_biz_dt_no_sparse_rerank b st).2⟩
  · rw [hshape]
    rfl
  · intro he
    rw [hshape]
    show (if e = "" then "unknown_error" else e) = e
    rw [if_neg he]
  · intro hn
    rw [validate_and_normalize_query, hn] at hv
    injection hv with h2
    exact h2.symm

/-- C2 counterexample: with a cold freshness memo, a request missing
`product_name` gets its FAIL envelope only after two Vector Index round
trips (collection resolution and the meta-document fetch) — the claim that
no backend call is made before returning is false. -/
theorem C2_counterexample :
    (search_competitors bPF qMiss 0 20 none none init_st).1.status = "FAIL" ∧
    (search_competitors bPF qMiss 0 20 none none init_st).1.failCause =
      "query 缺少必填字段: product_name" ∧
    (search_competitors bPF qMiss 0 20 none none init_st).2.calls.vectorIndex = 2 ∧
    init_st.calls.vectorIndex = 0 := by
  refine ⟨rfl, rfl, rfl, rfl⟩

/-- C2 witness: the amended claim at the concrete missing-field request. -/
theorem C2_validation_failure_witness :
    search_competitors bPF qMiss 0 20 none none init_st =
      (wrap_response_fail { candidates := [], query_raw := some qMiss }
        (get_biz_dt_from_dashvector bPF init_st).1.1 "query 缺少必填字段: product_name",
       (get_biz_dt_from_dashvector bPF init_st).2) ∧
    (search_competitors bPF qMiss 0 20 none none init_st).1.status = "FAIL" ∧
    (¬ (("query 缺少必填字段: product_name" : String) = "") →
      (search_competitors bPF qMiss 0 20 none none init_st).1.failCause =
        "query 缺少必填字段: product_name") ∧
    (qMiss.product_name = none →
      ("query 缺少必填字段: product_name" : String) = "query 缺少必填字段: product_name") ∧
    (get_biz_dt_from_dashvector bPF init_st).2.calls.sparseText = init_st.calls.sparseText ∧
    (get_biz_dt_from_dashvector bPF init_st).2.calls.rerankDocs = init_st.calls.rerankDocs :=
  C2_validation_failure_short_circuit bPF qMiss 0 20 none none init_st
    "query 缺少必填字段: product_name" rfl

/-- C3: the rerank threshold is a hard cutoff — every candidate listed in
`detail.candidates` of a response (from a fresh response cache) scores at
least `rerank_threshold`, every entry of `product_list` is backed by such a
candidate, and the rerank filter keeps only candidates for which the Rerank
Service returned a score (an index without a score is dropped). -/
theorem C3_rerank_threshold_cutoff (b : Backend) (query : Query) (threshold : Score)
    (mr : Int) (oc och : Option (List String)) (st : St) (hc : st.searchCache = []) :
    (∀ f ∈ (search_competitors b query threshold mr oc och st).1.detail.candidates,
      threshold ≤ f.rerank_score) ∧
    (∀ pid ∈ (search_competitors b query threshold mr oc och st).1.content.product_list,
      ∃ f ∈ (search_competitors b query threshold mr oc och st).1.detail.candidates,
        f.product_id = pid) ∧
    (∀ (rs : List (Nat × Score)) (cands : List CandidateItem) (f : FinalItem),
      f ∈ rerank_filter rs threshold cands →
      threshold ≤ f.rerank_score ∧ ∃ i, index_to_score rs i = some f.rerank_score) := by
  have hthird : ∀ (rs : List (Nat × Score)) (cands : List CandidateItem) (f : FinalItem),
      f ∈ rerank_filter rs threshold cands →
      threshold ≤ f.rerank_score ∧ ∃ i, index_to_score rs i = some f.rerank_score := by
    intro rs cands f hf
    obtain ⟨h1, i, c, _, hi, _⟩ := rerank_filter_mem rs threshold cands f hf
    exact ⟨h1, i, hi⟩
  have hmain : (∀ f ∈ (search_competitors b query threshold mr oc och st).1.detail.candidates,
      threshold ≤ f.rerank_score) ∧
      (∀ pid ∈ (search_competitors b query threshold mr oc och st).1.content.product_list,
        ∃ f ∈ (search_competitors b query threshold mr oc och st).1.detail.candidates,
          f.product_id = pid) := by
    rcases hbiz : get_biz_dt_from_dashvector b st with ⟨⟨bd, bw⟩, st1⟩
    have hsc1 : st1.searchCache = [] := by
      have h := get_biz_dt_searchCache b st
      rw [hbiz] at h
      exact h.trans hc
    cases hv : validate_and_normalize_query query with
    | error e =>
      rw [search_validation_fail b query threshold mr oc och st bd bw st1 e hbiz hv]
      constructor
      · intro f hf
        cases hf
      · intro pid hpid
        cases hpid
    | ok q0 =>
      have hmiss : cacheLookup st1.searchCache
          (mk_cache_key query (eff_filter oc q0.selected_company)
            (eff_filter och q0.selected_channel) threshold mr bd) = none := by
        rw [hsc1]
        rfl
      rcases hrun : run_pipeline b q0 (eff_filter oc q0.selected_company)
          (eff_filter och q0.selected_channel) threshold mr bd bw st1 with ⟨res, st2⟩
      cases res with
      | ok env =>
        rw [search_pipeline_ok_shape b query threshold mr oc och st bd bw st1 q0 env st2
          hbiz hv hmiss hrun]
        obtain ⟨_, hplist, hmem, _, _⟩ :=
          run_pipeline_ok b q0 _ _ threshold mr bd bw st1 env st2 hrun
        refine ⟨hmem, ?_⟩
        intro pid hpid
        rw [hplist] at hpid
        obtain ⟨f, hf, hfp⟩ := List.mem_map.1 hpid
        exact ⟨f, hf, hfp⟩
      | error e =>
        rw [search_pipeline_error_shape b query threshold mr oc och st bd bw st1 q0 e st2
          hbiz hv hmiss hrun]
        constructor
        · intro f hf
          cases hf
        · intro pid hpid
          cases hpid
  exact ⟨hmain.1, hmain.2, hthird⟩

/-- C3 witness: the cutoff and returned-score facts at one concrete
surviving candidate. -/
theorem C3_rerank_threshold_cutoff_witness :
    (0 : Score) ≤ (mk_final_item candW 1).rerank_score ∧
      ∃ i, index_to_score [(0, 1)] i = some (mk_final_item candW 1).rerank_score :=
  (C3_rerank_threshold_cutoff bPF qOkW 0 20 none none init_st rfl).2.2
    [(0, 1)] [candW] (mk_final_item candW 1) (by decide)

/-- C4: for `max_results` between 1 and 100, the surviving reranked
candidates are sorted by `rerank_score` descending, ties keep their input
(assembled-candidate) order — the subsequence at any fixed score is
unchanged by the sort — the final list is the first `max_results` entries
of the sorted list, and every response's `product_list` (from a fresh
response cache) has at most `max_results` entries. -/
theorem C4_sort_and_truncate (mr : Int) (h1 : 1 ≤ mr) (h100 : mr ≤ 100) :
    (∀ (rs : List (Nat × Score)) (threshold : Score) (cands : List CandidateItem),
      List.Pairwise (fun a b : FinalItem => b.rerank_score ≤ a.rerank_score)
        (sortedByDesc (fun f : FinalItem => f.rerank_score) (rerank_filter rs threshold cands)) ∧
      (∀ c : Score,
        (sortedByDesc (fun f : FinalItem => f.rerank_score)
            (rerank_filter rs threshold cands)).filter (fun f => decide (f.rerank_score = c)) =
          (rerank_filter rs threshold cands).filter (fun f => decide (f.rerank_score = c))) ∧
      finalize_rerank threshold mr rs cands =
        (sortedByDesc (fun f : FinalItem => f.rerank_score)
          (rerank_filter rs threshold cands)).take mr.toNat ∧
      (finalize_rerank threshold mr rs cands).length ≤ mr.toNat) ∧
    (∀ (b : Backend) (query : Query) (threshold : Score) (oc och : Option (List String))
      (st : St), st.searchCache = [] →
      ((search_competitors b query threshold mr oc och st).1.content.product_list).length ≤
        mr.toNat) := by
  have hmr : 0 < mr := by omega
  constructor
  · intro rs threshold cands
    refine ⟨sortedByDesc_pairwise _ _, fun c => filter_sortedByDesc _ c _, ?_, ?_⟩
    · rw [finalize_rerank, if_pos hmr]
    · exact finalize_rerank_length threshold mr rs cands hmr
  · intro b query threshold oc och st hc
    rcases hbiz : get_biz_dt_from_dashvector b st with ⟨⟨bd, bw⟩, st1⟩
    have hsc1 : st1.searchCache = [] := by
      have h := get_biz_dt_searchCache b st
      rw [hbiz] at h
      exact h.trans hc
    cases hv : validate_and_normalize_query query with
    | error e =>
      rw [search_validation_fail b query threshold mr oc och st bd bw st1 e hbiz hv]
      exact Nat.zero_le _
    | ok q0 =>
      have hmiss : cacheLookup st1.searchCache
          (mk_cache_key query (eff_filter oc q0.selected_company)
            (eff_filter och q0.selected_channel) threshold mr bd) = none := by
        rw [hsc1]
        rfl
      rcases hrun : run_pipeline b q0 (eff_filter oc q0.selected_company)
          (eff_filter och q0.selected_channel) threshold mr bd bw st1 with ⟨res, st2⟩
      cases res with
      | ok env =>
        rw [search_pipeline_ok_shape b query threshold mr oc och st bd bw st1 q0 env st2
          hbiz hv hmiss hrun]
        obtain ⟨_, hplist, _, _, hlen⟩ :=
          run_pipeline_ok b q0 _ _ threshold mr bd bw st1 env st2 hrun
        rw [hplist, List.length_map]
        exact hlen hmr
      | error e =>
        rw [search_pipeline_error_shape b query threshold mr oc och st bd bw st1 q0 e st2
          hbiz hv hmiss hrun]
        exact Nat.zero_le _

/-- C4 witness: the `max_results` cap, instantiated at 20 on a concrete
call. -/
theorem C4_sort_and_truncate_witness :
    ((search_competitors bPF qOkW 0 20 none none init_st).1.content.product_list).length ≤
      (20 : Int).toNat :=
  (C4_sort_and_truncate 20 (by omega) (by omega)).2 bPF qOkW 0 none none init_st rfl

/-- C9: a pipeline exception's FAIL envelope is stored in the response
cache under the request's key, so the identical request (within the TTL)
is answered from the cache with the process state unchanged — the pipeline
is not re-run; a validation-failure FAIL envelope, by contrast, leaves the
response cache untouched. -/
theorem C9_fail_envelope_caching (b : Backend) (query : Query) (threshold : Score)
    (mr : Int) (oc och : Option (List String)) (st : St) (bd : String) (bw : List String)
    (st1 : St) (q0 : NormQuery) (e : String) (st2 : St)
    (hbiz : get_biz_dt_from_dashvector b st = ((bd, bw), st1))
    (hv : validate_and_normalize_query query = .ok q0)
    (hmiss : cacheLookup st1.searchCache
      (mk_cache_key query (eff_filter oc q0.selected_company)
        (eff_filter och q0.selected_channel) threshold mr bd) = none)
    (hrun : run_pipeline b q0 (eff_filter oc q0.selected_company)
      (eff_filter och q0.selected_channel) threshold mr bd bw st1 = (.error e, st2)) :
    search_competitors b query threshold mr oc och st =
      (except_fail_env query bd e,
       { st2 with searchCache := st2.searchCache ++
         [(mk_cache_key query (eff_filter oc q0.selected_company)
            (eff_filter och q0.selected_channel) threshold mr bd,
           except_fail_env query bd e)] }) ∧
    cacheLookup ({ st2 with searchCache := st2.searchCache ++
        [(mk_cache_key query (eff_filter oc q0.selected_company)
           (eff_filter och q0.selected_channel) threshold mr bd,
          except_fail_env query bd e)] } : St).searchCache
      (mk_cache_key query (eff_filter oc q0.selected_company)
        (eff_filter och q0.selected_channel) threshold mr bd) =
      some (except_fail_env query bd e) ∧
    search_competitors b query threshold mr oc och
      { st2 with searchCache := st2.searchCache ++
        [(mk_cache_key query (eff_filter oc q0.selected_company)
           (eff_filter och q0.selected_channel) threshold mr bd,
          except_fail_env query bd e)] } =
      (except_fail_env query bd e,
       { st2 with searchCache := st2.searchCache ++
         [(mk_cache_key query (eff_filter oc q0.selected_company)
            (eff_filter och q0.selected_channel) threshold mr bd,
           except_fail_env query bd e)] }) ∧
    (∀ (q' : Query) (e' : String), validate_and_normalize_query q' = .error e' →
      (search_competitors b q' threshold mr oc och st).2.searchCache = st.searchCache) := by
  have hstable := run_pipeline_stable b q0 (eff_filter oc q0.selected_company)
    (eff_filter och q0.selected_channel) threshold mr bd bw st1
  rw [hrun] at hstable
  have hsc2 : st2.searchCache = st1.searchCache := hstable.1
  have hmeta1 : st1.metaCache = some (bd, bw) := by
    have h := get_biz_dt_memo b st
    rw [hbiz] at h
    exact h
  have hmeta2 : st2.metaCache = some (bd, bw) := hstable.2.trans hmeta1
  have hhit : cacheLookup ({ st2 with searchCache := st2.searchCache ++
      [(mk_cache_key query (eff_filter oc q0.selected_company)
         (eff_filter och q0.selected_channel) threshold mr bd,
        except_fail_env query bd e)] } : St).searchCache
      (mk_cache_key query (eff_filter oc q0.selected_company)
        (eff_filter och q0.selected_channel) threshold mr bd) =
      some (except_fail_env query bd e) := by
    show cacheLookup (st2.searchCache ++ _) _ = _
    apply cacheLookup_append
    rw [hsc2]
    exact hmiss
  refine ⟨search_pipeline_error_shape b query threshold mr oc och st bd bw st1 q0 e st2
    hbiz hv hmiss hrun, hhit, ?_, ?_⟩
  · have hbiz2 : get_biz_dt_from_dashvector b
        ({ st2 with searchCache := st2.searchCache ++
          [(mk_cache_key query (eff_filter oc q0.selected_company)
             (eff_filter och q0.selected_channel) threshold mr bd,
            except_fail_env query bd e)] } : St) =
        ((bd, bw), { st2 with searchCache := st2.searchCache ++
          [(mk_cache_key query (eff_filter oc q0.selected_company)
             (eff_filter och q0.selected_channel) threshold mr bd,
            except_fail_env query bd e)] }) :=
      get_biz_dt_warm b _ (bd, bw) hmeta2
    exact search_cache_hit b query threshold mr oc och _ bd bw _ q0 _ hbiz2 hv hhit
  · intro q' e' hv'
    rw [search_validation_fail b q' threshold mr oc och st bd bw st1 e' hbiz hv']
    have h := get_biz_dt_searchCache b st
    rw [hbiz] at h
    exact h

/-- C9 witness: the concrete failing request is cached and the identical
follow-up request is served from the cache with the state unchanged. -/
theorem C9_fail_envelope_caching_witness :
    search_competitors bPF qOkW 0 20 none none init_st =
      (except_fail_env qOkW "D1" "boom", stW2) ∧
    search_competitors bPF qOkW 0 20 none none stW2 =
      (except_fail_env qOkW "D1" "boom", stW2) := by
  have h := C9_fail_envelope_caching bPF qOkW 0 20 none none init_st "D1" [] stW1 q0W
    "boom" stW1 rfl rfl rfl rfl
  exact ⟨h.1, h.2.2.1⟩

end CompSearch
